import Mathlib

/-!
# Veri*Factu API: the chained invoice-reporting engine

A shallow embedding of `src/verifactu.xml.js` (class `VeriFactuXML`) and of the
request handlers of `src/api.js` that decide the properties stated below.

Conventions of the embedding

* JavaScript strings are Lean strings, handled through their list of code points.
* A JavaScript exception is the error side of `Except JsError`.
* `null` and `undefined` are `none`.
* Monetary amounts are two-decimal values and are held as a number of cents.
* A `Date` is held by the calendar fields of its local time.
* `crypto.createHash('sha256')` is the SHA-256 function of FIPS 180-4, written
  out over natural numbers below.
-/

namespace Sha256

def two32 : Nat := 4294967296

def rotr (n x : Nat) : Nat := ((x >>> n) ||| (x <<< (32 - n))) % two32

def bigSigma0 (x : Nat) : Nat := rotr 2 x ^^^ rotr 13 x ^^^ rotr 22 x

def bigSigma1 (x : Nat) : Nat := rotr 6 x ^^^ rotr 11 x ^^^ rotr 25 x

def smallSigma0 (x : Nat) : Nat := rotr 7 x ^^^ rotr 18 x ^^^ (x >>> 3)

def smallSigma1 (x : Nat) : Nat := rotr 17 x ^^^ rotr 19 x ^^^ (x >>> 10)

def ch (x y z : Nat) : Nat := (x &&& y) ^^^ ((two32 - 1 - x) &&& z)

def maj (x y z : Nat) : Nat := (x &&& y) ^^^ (x &&& z) ^^^ (y &&& z)

def roundConstants : List Nat :=
  [0x428a2f98, 0x71374491, 0xb5c0fbcf, 0xe9b5dba5, 0x3956c25b, 0x59f111f1, 0x923f82a4, 0xab1c5ed5,
   0xd807aa98, 0x12835b01, 0x243185be, 0x550c7dc3, 0x72be5d74, 0x80deb1fe, 0x9bdc06a7, 0xc19bf174,
   0xe49b69c1, 0xefbe4786, 0x0fc19dc6, 0x240ca1cc, 0x2de92c6f, 0x4a7484aa, 0x5cb0a9dc, 0x76f988da,
   0x983e5152, 0xa831c66d, 0xb00327c8, 0xbf597fc7, 0xc6e00bf3, 0xd5a79147, 0x06ca6351, 0x14292967,
   0x27b70a85, 0x2e1b2138, 0x4d2c6dfc, 0x53380d13, 0x650a7354, 0x766a0abb, 0x81c2c92e, 0x92722c85,
   0xa2bfe8a1, 0xa81a664b, 0xc24b8b70, 0xc76c51a3, 0xd192e819, 0xd6990624, 0xf40e3585, 0x106aa070,
   0x19a4c116, 0x1e376c08, 0x2748774c, 0x34b0bcb5, 0x391c0cb3, 0x4ed8aa4a, 0x5b9cca4f, 0x682e6ff3,
   0x748f82ee, 0x78a5636f, 0x84c87814, 0x8cc70208, 0x90befffa, 0xa4506ceb, 0xbef9a3f7, 0xc67178f2]

def initialState : List Nat :=
  [0x6a09e667, 0xbb67ae85, 0x3c6ef372, 0xa54ff53a, 0x510e527f, 0x9b05688c, 0x1f83d9ab, 0x5be0cd19]

/-- UTF-8 encoding of one code point, as byte values. -/
def utf8Char (c : Char) : List Nat :=
  let n := c.toNat
  if n < 0x80 then [n]
  else if n < 0x800 then [0xC0 + n / 64, 0x80 + n % 64]
  else if n < 0x10000 then [0xE0 + n / 4096, 0x80 + n / 64 % 64, 0x80 + n % 64]
  else [0xF0 + n / 262144, 0x80 + n / 4096 % 64, 0x80 + n / 64 % 64, 0x80 + n % 64]

def utf8 (s : String) : List Nat := s.data.flatMap utf8Char

/-- Big-endian bytes of `n`, exactly `k` of them. -/
def beBytes : Nat → Nat → List Nat
  | 0, _ => []
  | k + 1, n => (n / 256 ^ k) % 256 :: beBytes k n

/-- Message padding: a one bit, zeros up to 56 modulo 64, the bit length on 8 bytes. -/
def pad (m : List Nat) : List Nat :=
  m ++ 0x80 :: List.replicate ((119 - m.length % 64) % 64) 0 ++ beBytes 8 (8 * m.length)

/-- Big-endian 32-bit words of a byte list. -/
def toWords : List Nat → List Nat
  | a :: b :: c :: d :: rest => (((a * 256 + b) * 256 + c) * 256 + d) :: toWords rest
  | _ => []

/-- Blocks of 16 words; `fuel` bounds the number of blocks. -/
def blocks : Nat → List Nat → List (List Nat)
  | 0, _ => []
  | fuel + 1, ws => if ws.length < 16 then [] else ws.take 16 :: blocks fuel (ws.drop 16)

/-- Message schedule, newest word first: `rev` holds w[t-1], w[t-2], ... -/
def schedule : Nat → List Nat → List Nat
  | 0, rev => rev
  | k + 1, rev =>
    let w := (smallSigma1 (rev.getD 1 0) + rev.getD 6 0 + smallSigma0 (rev.getD 14 0)
      + rev.getD 15 0) % two32
    schedule k (w :: rev)

structure Regs where
  a : Nat
  b : Nat
  c : Nat
  d : Nat
  e : Nat
  f : Nat
  g : Nat
  h : Nat

def step (r : Regs) (kw : Nat × Nat) : Regs :=
  let t1 := r.h + bigSigma1 r.e + ch r.e r.f r.g + kw.1 + kw.2
  let t2 := bigSigma0 r.a + maj r.a r.b r.c
  { a := (t1 + t2) % two32, b := r.a, c := r.b, d := r.c,
    e := (r.d + t1) % two32, f := r.e, g := r.f, h := r.g }

def compress (st : List Nat) (block : List Nat) : List Nat :=
  let w := (schedule 48 block.reverse).reverse
  let r0 : Regs := { a := st.getD 0 0, b := st.getD 1 0, c := st.getD 2 0, d := st.getD 3 0,
                     e := st.getD 4 0, f := st.getD 5 0, g := st.getD 6 0, h := st.getD 7 0 }
  let r := (roundConstants.zip w).foldl step r0
  List.zipWith (fun x y => (x + y) % two32) st [r.a, r.b, r.c, r.d, r.e, r.f, r.g, r.h]

def digestWords (m : List Nat) : List Nat :=
  let ws := toWords (pad m)
  (blocks ws.length ws).foldl compress initialState

def hexDigit (n : Nat) : Char :=
  if n < 10 then Char.ofNat (48 + n) else Char.ofNat (87 + n)

def hexWord (w : Nat) : List Char :=
  (beBytes 4 w).flatMap fun b => [hexDigit (b / 16), hexDigit (b % 16)]

/-- The value of `crypto.createHash('sha256').update(s).digest('hex')`: the lowercase
hexadecimal SHA-256 digest of the UTF-8 bytes of `s`. -/
def hex (s : String) : String := ⟨(digestWords (utf8 s)).flatMap hexWord⟩

end Sha256

namespace Verifactu

/-! ## JavaScript values and string primitives -/

/-- A raised JavaScript exception. -/
inductive JsError where
  | typeError (msg : String)
  | referenceError (msg : String)
  | error (msg : String)
  deriving DecidableEq, Repr

/-- Code points whose upper-case form (Unicode `SpecialCasing` and simple mappings)
contains an ASCII letter although the code point itself is not ASCII. -/
def upperSpecial : List (Nat × List Nat) :=
  [(0xDF, [0x53, 0x53]), (0x131, [0x49]), (0x17F, [0x53]), (0x149, [0x2BC, 0x4E]),
   (0x1F0, [0x4A, 0x30C]), (0x1E96, [0x48, 0x331]), (0x1E97, [0x54, 0x308]),
   (0x1E98, [0x57, 0x30A]), (0x1E99, [0x59, 0x30A]), (0x1E9A, [0x41, 0x2BE]),
   (0xFB00, [0x46, 0x46]), (0xFB01, [0x46, 0x49]), (0xFB02, [0x46, 0x4C]),
   (0xFB03, [0x46, 0x46, 0x49]), (0xFB04, [0x46, 0x46, 0x4C]), (0xFB05, [0x53, 0x54]),
   (0xFB06, [0x53, 0x54])]

/-- `String.prototype.toUpperCase` on one code point. ASCII letters and the code points
of `upperSpecial` are mapped as Unicode prescribes; every other code point is left as it
is, which is exact wherever the result is only tested for being an ASCII word character
(its upper-case form has no ASCII character). -/
def upperChar (c : Char) : List Char :=
  if 'a' ≤ c ∧ c ≤ 'z' then [Char.ofNat (c.toNat - 32)]
  else match upperSpecial.lookup c.toNat with
    | some us => us.map Char.ofNat
    | none => [c]

def toUpperCase (s : String) : String := ⟨s.data.flatMap upperChar⟩

/-- The regular-expression class `\w`: ASCII letters, digits and the underscore. -/
def isWordChar (c : Char) : Bool :=
  ('a' ≤ c && c ≤ 'z') || ('A' ≤ c && c ≤ 'Z') || ('0' ≤ c && c ≤ '9') || c == '_'

/-- White space and line terminators removed by `String.prototype.trim`. -/
def isJsSpace (c : Char) : Bool :=
  let n := c.toNat
  (9 ≤ n && n ≤ 13) || n == 0x20 || n == 0xA0 || n == 0x1680 || (0x2000 ≤ n && n ≤ 0x200A)
    || n == 0x2028 || n == 0x2029 || n == 0x202F || n == 0x205F || n == 0x3000 || n == 0xFEFF

def trim (s : String) : String :=
  ⟨((s.data.dropWhile isJsSpace).reverse.dropWhile isJsSpace).reverse⟩

/-- Decimal digits of a natural number, most significant first; `fuel` bounds their count. -/
def decimalAux : Nat → Nat → List Char → List Char
  | 0, _, acc => acc
  | fuel + 1, n, acc =>
    let acc1 := Char.ofNat (48 + n % 10) :: acc
    if n / 10 = 0 then acc1 else decimalAux fuel (n / 10) acc1

/-- `Number.prototype.toString` on a non-negative integer. -/
def decimal (n : Nat) : List Char := decimalAux (n + 1) n []

/-- `String.prototype.padStart(len, '0')`. -/
def padStart (len : Nat) (s : List Char) : List Char :=
  List.replicate (len - s.length) '0' ++ s

/-- The value of a string of decimal digits. -/
def digitsValue (ds : List Char) : Nat :=
  ds.foldl (fun acc c => 10 * acc + (c.toNat - 48)) 0

/-! ## Data model -/

/-- Local calendar fields of a `Date`. -/
structure JsDate where
  year : Nat
  month : Nat
  day : Nat
  deriving DecidableEq, Repr

/-- A row of table `companies`. -/
structure Company where
  id : Nat
  name : String
  vat_id : String
  test : Bool
  first_num : Option Nat
  formula : Option String
  formula_r : Option String
  deriving DecidableEq, Repr

/-- A row of table `invoices`. Amounts are in cents. -/
structure Invoice where
  id : Nat
  company_id : Nat
  dt : JsDate
  num : Nat
  name : String
  vat_id : Option String
  comments : Option String
  verifactu_type : String
  verifactu_stype : Option String
  invoice_ref_id : Option Nat
  tvat : Int
  bi : Int
  total : Int
  voided : Bool
  verifactu_dt : Option String
  verifactu_err : Option Nat
  verifactu_csv : Option String
  fingerprint : Option String
  deriving DecidableEq, Repr

/-- The previous record of the chain, as `send` builds it:
`{numFmt, dt, fingerprint}`. -/
structure ChainLink where
  numFmt : String
  dt : JsDate
  fingerprint : Option String
  deriving DecidableEq, Repr

/-! ## Formatter -/

/-- Match of `/%n\.(\d+)%/` at the head of the input: the captured digits and what
follows the match. -/
def matchPadded : List Char → Option (List Char × List Char)
  | c0 :: c1 :: c2 :: t =>
    if c0 = '%' ∧ c1 = 'n' ∧ c2 = '.' then
      match t.takeWhile Char.isDigit, t.dropWhile Char.isDigit with
      | d :: ds, c :: rest => if c = '%' then some (d :: ds, rest) else none
      | _, _ => none
    else none
  | _ => none

/-- The call `s.replace(/%n\.(\d+)%/, (_, len) => f(len))`: the regular expression has
no `g` flag, so only the leftmost match is replaced. -/
def replacePadded (f : List Char → List Char) : List Char → List Char
  | [] => []
  | c :: t =>
    match matchPadded (c :: t) with
    | some (len, rest) => f len ++ rest
    | none => c :: replacePadded f t

/-- The call `s.replace(/%n%|%y%|%Y%/g, m => table[m])`: every match, from left to
right, without overlap. -/
def replacePlaceholders (n y2 y4 : List Char) : List Char → List Char
  | [] => []
  | [c] => [c]
  | [c, d] => [c, d]
  | c0 :: c1 :: c2 :: t =>
    if c0 = '%' ∧ c2 = '%' ∧ c1 = 'n' then n ++ replacePlaceholders n y2 y4 t
    else if c0 = '%' ∧ c2 = '%' ∧ c1 = 'y' then y2 ++ replacePlaceholders n y2 y4 t
    else if c0 = '%' ∧ c2 = '%' ∧ c1 = 'Y' then y4 ++ replacePlaceholders n y2 y4 t
    else c0 :: replacePlaceholders n y2 y4 (c1 :: c2 :: t)

/-- `str.slice(-2)`: the last two characters. -/
def sliceLast2 (s : List Char) : List Char := s.drop (s.length - 2)

/-- Display number of an invoice, from the numbering formula of the company. -/
def numFmt (company : Company) (invoice : Invoice) : String :=
  let f := if invoice.verifactu_type.data.head? = some 'F' then company.formula
           else company.formula_r
  let s := match f with
    | some t => t
    | none => if invoice.verifactu_type.data.head? = some 'F' then "%n%" else "R-%n%"
  let s1 := replacePadded (fun len => padStart (digitsValue len) (decimal invoice.num)) s.data
  let y := invoice.dt.year
  ⟨replacePlaceholders (decimal invoice.num) (sliceLast2 (decimal y)) (decimal y) s1⟩

/-- Currency format, `n.toFixed(2)`, of an amount held in cents. -/
def cur (n : Int) : String :=
  ⟨(if n < 0 then ['-'] else []) ++ decimal (n.natAbs / 100) ++ '.' ::
    padStart 2 (decimal (n.natAbs % 100))⟩

/-- Date format: `toLocaleDateString('en-GB')` with every `/` turned into `-`. -/
def dt (d : JsDate) : String :=
  ⟨padStart 2 (decimal d.day) ++ '-' :: padStart 2 (decimal d.month) ++ '-' :: decimal d.year⟩

/-- Letters-and-numbers format: `str.toUpperCase().replace(/\W/gu, '').trim()`. -/
def cod (str : String) : String :=
  trim ⟨(toUpperCase str).data.filter isWordChar⟩

/-! ## Fingerprint engine -/

/-- Fingerprint of a record. Reading `last.fingerprint` when `last` is `null` raises a
`TypeError`. -/
def fingerprint (company : Company) (invoice : Invoice) (last : Option ChainLink)
    (dtGen : String) (voided : Bool) : Except JsError String :=
  match last with
  | none => .error (.typeError "Cannot read properties of null (reading 'fingerprint')")
  | some l =>
    let last_fp := l.fingerprint.getD ""
    let data :=
      if voided then
        "IDEmisorFacturaAnulada=" ++ cod company.vat_id ++ "&NumSerieFacturaAnulada="
          ++ numFmt company invoice ++ "&FechaExpedicionFacturaAnulada=" ++ dt invoice.dt
          ++ "&Huella=" ++ last_fp ++ "&FechaHoraHusoGenRegistro=" ++ dtGen
      else
        "IDEmisorFactura=" ++ cod company.vat_id ++ "&NumSerieFactura="
          ++ numFmt company invoice ++ "&FechaExpedicionFactura=" ++ dt invoice.dt
          ++ "&TipoFactura=" ++ invoice.verifactu_type ++ "&CuotaTotal=" ++ cur invoice.tvat
          ++ "&ImporteTotal=" ++ cur invoice.total ++ "&Huella=" ++ last_fp
          ++ "&FechaHoraHusoGenRegistro=" ++ dtGen
    .ok (toUpperCase (Sha256.hex data))

/-! ## Storage collaborator -/

/-- Order of `ORDER BY verifactu_dt DESC, id DESC`: whether row `a` comes before row `b`.
A `NULL` date is the lowest value; dates are compared as `YYYY-MM-DD HH:MM:SS` texts. -/
def confirmedBefore (a b : Invoice) : Bool :=
  match a.verifactu_dt, b.verifactu_dt with
  | some x, some y => y < x || (x == y && b.id < a.id)
  | some _, none => true
  | none, some _ => false
  | none, none => b.id < a.id

/-- Last invoice sent to the authority: first row of
`SELECT * FROM invoices WHERE company_id = ? AND fingerprint IS NOT NULL
 ORDER BY verifactu_dt DESC, id DESC`. -/
def lastInvoice (db : List Invoice) (company : Company) : Option Invoice :=
  (db.filter fun r => r.company_id == company.id && r.fingerprint.isSome).foldl
    (fun best r =>
      match best with
      | none => some r
      | some b => if confirmedBefore r b then some r else some b)
    none

/-- An update query issued by `send`. In `updateInvoice` a column that the statement
does not set is `none` (`verifactu_csv`, `fingerprint`) or `false` (`voided`). -/
inductive Query where
  | setNextSend (company_id : Nat) (seconds : Option String)
  | updateInvoice (id : Nat) (verifactu_dt : String) (verifactu_err : Nat)
      (verifactu_csv : Option String) (fingerprint : Option String) (voided : Bool)
  deriving DecidableEq, Repr

/-- Effect of one update query on table `invoices`. -/
def applyQuery (db : List Invoice) : Query → List Invoice
  | .setNextSend _ _ => db
  | .updateInvoice id vdt err csv fp vd =>
    db.map fun r =>
      if r.id = id then
        { r with
          verifactu_dt := some vdt
          verifactu_err := some err
          verifactu_csv := if csv.isSome then csv else r.verifactu_csv
          fingerprint := if fp.isSome then fp else r.fingerprint
          voided := if vd then true else r.voided }
      else r

/-- Column `fingerprint` of the row `id` of a table; `none` when it is `NULL` or there is no
such row. -/
def fingerprintIn (table : List Invoice) (id : Nat) : Option String :=
  match table.find? fun r => r.id == id with
  | some r => r.fingerprint
  | none => none

/-- The fingerprint that a list of update queries, run in order, writes last on the row
`id`; `none` when no query writes that column of that row. -/
def persistedFingerprint (id : Nat) : List Query → Option String
  | [] => none
  | .updateInvoice i _ _ _ (some fp) _ :: qs =>
    match persistedFingerprint id qs with
    | some later => some later
    | none => if i = id then some fp else none
  | _ :: qs => persistedFingerprint id qs

/-! ## Batch submission client and reconciler -/

/-- An invoice of the batch with its `_prev` property: the chain link that the record
builder received for it. -/
structure Prepared where
  invoice : Invoice
  prev : Option ChainLink
  deriving DecidableEq, Repr

/-- The link that the loop of `send` leaves after a record. -/
def nextLink (company : Company) (invoice : Invoice) (fp : String) : ChainLink :=
  { numFmt := numFmt company invoice, dt := invoice.dt, fingerprint := some fp }

/-- The loop `for(const invoice of invoices)` of `send`: the fingerprint of each invoice is
computed with the running link, the link is kept as `invoice._prev` and handed to the record
builder, and the running link advances. An exception leaves the loop. -/
def buildRecords (company : Company) (dtGen : String) (voided : Bool) :
    Option ChainLink → List Invoice → Except JsError (List Prepared)
  | _, [] => .ok []
  | chain, invoice :: rest =>
    match fingerprint company invoice chain dtGen voided with
    | .error e => .error e
    | .ok fp =>
      match buildRecords company dtGen voided (some (nextLink company invoice fp)) rest with
      | .error e => .error e
      | .ok tail => .ok ({ invoice := invoice, prev := chain } :: tail)

/-- The link `send` starts from: `{numFmt, dt, fingerprint}` of the last confirmed invoice,
or `null`. -/
def chainStart (db : List Invoice) (company : Company) : Option ChainLink :=
  match lastInvoice db company with
  | some c => some { numFmt := numFmt company c, dt := c.dt, fingerprint := c.fingerprint }
  | none => none

/-- One `RespuestaLinea` of the parsed response. Element texts are strings; an absent
element is `none`. -/
structure RespuestaLinea where
  numSerieFactura : Option String
  tipoOperacion : Option String
  estadoRegistro : Option String
  codigoErrorRegistro : Option String
  descripcionErrorRegistro : Option String
  deriving DecidableEq, Repr

/-- The element `RespuestaRegFactuSistemaFacturacion` of the parsed response. -/
structure Respuesta where
  csv : Option String
  tiempoEsperaEnvio : Option String
  timestampPresentacion : Option String
  lineas : List RespuestaLinea
  deriving DecidableEq, Repr

/-- What `xml2js.parseString` yields on the response body. -/
inductive Parsed where
  | malformed
  | noRespuesta
  | respuesta (r : Respuesta)
  deriving DecidableEq, Repr

/-- Outcome of `sendXML`: the promise is rejected or an exception is raised, or it
resolves to `{status, response}` (a resolved value has no property `error`). -/
inductive Reply where
  | raised (e : JsError)
  | answered (status : Nat) (body : Parsed)
  deriving DecidableEq, Repr

/-- Truthiness of a nullable string. -/
def truthy : Option String → Bool
  | some s => s != ""
  | none => false

/-- An entry of the `ok` or `ko` list of the summary. -/
structure Entry where
  id : Option Nat
  num : Option String
  codError : Option String
  descrError : Option String
  deriving DecidableEq, Repr

structure Summary where
  ok : List Entry
  ko : List Entry
  deriving DecidableEq, Repr

/-- The loop `for(const key in invoices) ikeys[numFmt(company, invoices[key])] = key`, from
position `key` on: an assignment puts the entry at the head, where it hides an older entry
of the same display number. (Display numbers are taken as ordinary property names; the
name `__proto__`, which an object does not keep as a property of its own, is not
modelled.) -/
def ikeysFrom (company : Company) : Nat → List Invoice → List (String × Nat) →
    List (String × Nat)
  | _, [], ikeys => ikeys
  | key, invoice :: rest, ikeys =>
    ikeysFrom company (key + 1) rest ((numFmt company invoice, key) :: ikeys)

/-- The object `ikeys`: display number to position in the batch. -/
def ikeysOf (company : Company) (invoices : List Invoice) : List (String × Nat) :=
  ikeysFrom company 0 invoices []

/-- The lookup `invoices[ikeys[numSerieFactura]]`; an `undefined` number is the property
name `undefined`. -/
def findInvoice (ikeys : List (String × Nat)) (batch : List Prepared)
    (numSerieFactura : Option String) : Option Prepared :=
  match ikeys.lookup (numSerieFactura.getD "undefined") with
  | some k => batch.get? k
  | none => none

/-- Unary plus on the text of an error code (a decimal numeral). -/
def toNumber (codError : Option String) : Nat :=
  match codError with
  | some s => digitsValue s.data
  | none => 0

/-- Environment of a call of `send`: the batch timestamp `formatDateTime(new Date())` and
the conversion `new Date(t).toISOString().replace('T', ' ').slice(0, 19)`. -/
structure Host where
  now : String
  toUtc : String → String

/-- Body of the loop over the outcome lines: the state is the summary and the update
queries issued so far. A query holds the values that the statement stores (the escaping of
the quotes of `verifactu_csv` is part of the statement text, not of the value). -/
def reconcileLine (company : Company) (voided : Bool) (ikeys : List (String × Nat))
    (batch : List Prepared) (r : Respuesta) (dtutc : String)
    (st : Summary × List Query) (line : RespuestaLinea) : Except JsError (Summary × List Query) :=
  let codError := line.codigoErrorRegistro
  match findInvoice ikeys batch line.numSerieFactura with
  | none =>
    .ok (⟨st.1.ok, st.1.ko ++ [⟨none, line.numSerieFactura, some "Not exists", none⟩]⟩, st.2)
  | some p =>
    let csv :=
      if truthy r.csv then
        some (trim ((p.invoice.verifactu_csv.getD "") ++ "\n" ++ r.csv.getD ""))
      else none
    let fp : Except JsError (Option String) :=
      if truthy r.timestampPresentacion then
        match fingerprint company p.invoice p.prev (r.timestampPresentacion.getD "") voided with
        | .ok h => .ok (some h)
        | .error e => .error e
      else .ok none
    match fp with
    | .error e => .error e
    | .ok fp =>
      let q := Query.updateInvoice p.invoice.id dtutc (toNumber codError) csv fp
        (!truthy codError && voided)
      let s : Summary :=
        if truthy codError then
          ⟨st.1.ok, st.1.ko ++ [⟨some p.invoice.id, line.numSerieFactura, codError,
            line.descripcionErrorRegistro⟩]⟩
        else
          ⟨st.1.ok ++ [⟨some p.invoice.id, line.numSerieFactura, none, none⟩], st.1.ko⟩
      .ok (s, st.2 ++ [q])

/-- The loop `for(const line of lines)`. -/
def reconcileLines (company : Company) (voided : Bool) (ikeys : List (String × Nat))
    (batch : List Prepared) (r : Respuesta) (dtutc : String) :
    Summary × List Query → List RespuestaLinea → Except JsError (Summary × List Query)
  | st, [] => .ok st
  | st, line :: rest =>
    match reconcileLine company voided ikeys batch r dtutc st line with
    | .error e => .error e
    | .ok st1 => reconcileLines company voided ikeys batch r dtutc st1 rest

/-- What `send` resolves to. -/
inductive SendResult where
  | message (text : String)
  | transport (status : Nat)
  | summary (s : Summary)
  deriving DecidableEq, Repr

/-- Observable outcome of `send`: the value it resolves to, the records handed to the
record builder and the update queries issued, in order. -/
structure SendOutcome where
  result : SendResult
  records : List Prepared
  queries : List Query
  deriving DecidableEq, Repr

/-- The method `send(company, invoices, voided)`. `db` is table `invoices` when the call
starts and `reply` is what the authority answers to the envelope. -/
def send (host : Host) (db : List Invoice) (company : Company) (invoices : List Invoice)
    (voided : Bool) (reply : Reply) : Except JsError SendOutcome :=
  if invoices.isEmpty then
    .ok { result := .message "No invoices to send", records := [], queries := [] }
  else
    let ikeys := ikeysOf company invoices
    let dtGen := host.now
    match buildRecords company dtGen voided (chainStart db company) invoices with
    | .error e => .error e
    | .ok batch =>
      match reply with
      | .raised e => .error e
      | .answered status body =>
        if status ≠ 200 then
          .ok { result := .transport status, records := batch, queries := [] }
        else
          match body with
          | .malformed => .ok { result := .summary ⟨[], []⟩, records := batch, queries := [] }
          | .noRespuesta => .ok { result := .summary ⟨[], []⟩, records := batch, queries := [] }
          | .respuesta r =>
            let dtutc := host.toUtc
              (if truthy r.timestampPresentacion then r.timestampPresentacion.getD "" else dtGen)
            let q0 := Query.setNextSend company.id r.tiempoEsperaEnvio
            match reconcileLines company voided ikeys batch r dtutc (⟨[], []⟩, [q0]) r.lineas with
            | .error e => .error e
            | .ok st => .ok { result := .summary st.1, records := batch, queries := st.2 }

/-- The method `voided(company, invoices)`. -/
def voided (host : Host) (db : List Invoice) (company : Company) (invoices : List Invoice)
    (reply : Reply) : Except JsError SendOutcome :=
  send host db company invoices true reply

/-! ## Transport and the sweep over pending invoices -/

/-- What happens to the request of `sendXML`: the key or the certificate cannot be read,
the authority answers (`body` is the answer as `xml2js` parses it), or the connection
fails. -/
inductive Transport where
  | unreadable (msg : String)
  | response (status : Nat) (body : Parsed)
  | connectionError (msg : String)
  deriving DecidableEq, Repr

/-- The method `sendXML(company, xml)`. An unreadable file raises in the `try` block, which
logs and raises again. The listener of `'error'` evaluates `status`, a variable of the
response callback that is not in its scope: a `ReferenceError` is raised in the listener
and the promise is never settled with a value. -/
def sendXML : Transport → Reply
  | .unreadable msg => .raised (.error msg)
  | .response status body => .answered status body
  | .connectionError _ => .raised (.referenceError "status is not defined")

/-- Order of two dates. -/
def dateLe (a b : JsDate) : Bool :=
  a.year < b.year || (a.year == b.year && (a.month < b.month || (a.month == b.month && a.day ≤ b.day)))

/-- The clause `ORDER BY dt`; rows of one day keep the order of the table (the time of day
is not modelled). -/
def orderByDt (rows : List Invoice) : List Invoice :=
  rows.insertionSort fun a b => dateLe a.dt b.dt = true

/-- The batch of `pending` for a company:
`SELECT * FROM invoices WHERE company_id = ? AND verifactu_dt IS NULL ORDER BY dt LIMIT 1000`. -/
def pendingInvoices (db : List Invoice) (company : Company) : List Invoice :=
  (orderByDt (db.filter fun r => r.company_id == company.id && r.verifactu_dt.isNone)).take 1000

/-- The method `pending()`, over the rows of `companies` with their `nxSend` (seconds until
`next_send`, `none` when `next_send` is `NULL`): a company whose `nxSend` is positive gets a
message, any other company gets the result of `send` on its pending invoices. `reply` is
what `sendXML` yields for the envelope of a company. An exception of `send` ends the
sweep. -/
def pending (host : Host) (reply : Company → Reply) :
    List Invoice → List (Company × Option Int) → Except JsError (List (Nat × SendOutcome))
  | _, [] => .ok []
  | db, (company, nxSend) :: rest =>
    if 0 < nxSend.getD 0 then
      match pending host reply db rest with
      | .error e => .error e
      | .ok tail =>
        .ok ((company.id,
          { result := .message ("Next send in " ++ ⟨decimal (nxSend.getD 0).toNat⟩ ++ " seconds"),
            records := [], queries := [] }) :: tail)
    else
      match send host db company (pendingInvoices db company) false (reply company) with
      | .error e => .error e
      | .ok out =>
        match pending host reply (out.queries.foldl applyQuery db) rest with
        | .error e => .error e
        | .ok tail => .ok ((company.id, out) :: tail)

/-! ## Query client -/

/-- `Number(v)` for an argument that is `null` or an integer number. -/
def numberOf (v : Option Int) : Int := v.getD 0

/-- The statement `year = Math.max(2025, Math.min(2200, year)) || new Date().getFullYear()`
of `Consulta`: the fallback is taken when the clamped value is falsy. -/
def ConsultaEjercicio (currentYear : Nat) (year : Option Int) : Int :=
  let clamped := max 2025 (min 2200 (numberOf year))
  if clamped ≠ 0 then clamped else currentYear

/-- The statement
`month = String(Math.max(1, Math.min(12, month || new Date().getMonth() + 1))).padStart(2, '0')`
of `Consulta`; `currentMonth` is `new Date().getMonth() + 1`. -/
def ConsultaPeriodo (currentMonth : Nat) (month : Option Int) : String :=
  let m : Int := if numberOf month ≠ 0 then numberOf month else currentMonth
  ⟨padStart 2 (decimal (max 1 (min 12 m)).toNat)⟩

/-! ## Request handlers of the API layer -/

/-- Truthiness of a nullable row id. -/
def truthyId : Option Nat → Bool
  | some n => n != 0
  | none => false

/-- The test `/^\d+(,\d+)*$/` on the path parameter `id`. -/
def idListOk (id : String) : Bool :=
  (id.data.splitOn ',').all fun part => !part.isEmpty && part.all Char.isDigit

/-- Next invoice number of the current year. The statement
`SELECT MAX(num) AS Mx FROM invoices WHERE company_id = ? AND YEAR(dt) = ? AND
 LEFT(verifactu_type, 1) = ?` is an aggregate without `GROUP BY`: it yields one row, whose
`Mx` is `NULL` when no row is selected. -/
def maxNumQuery (db : List Invoice) (company_id year : Nat) (f : Char) : List (Option Nat) :=
  [((db.filter fun r => r.company_id == company_id && r.dt.year == year
        && r.verifactu_type.data.head? == some f).map fun r => r.num).foldl
      (fun m n =>
        match m with
        | none => some n
        | some k => some (max k n))
      none]

/-- The function `nextNum(type)`: `result.length ? result[0].Mx + 1 : fst`, where
`null + 1` is `1`. -/
def nextNum (db : List Invoice) (company : Company) (year : Nat) (type : String) : Nat :=
  let fst := if (company.first_num.getD 0) ≠ 0 then company.first_num.getD 0 else 1
  let f := if type.data.head? = some 'R' then 'R' else 'F'
  match maxNumQuery db company.id year f with
  | [] => fst
  | row :: _ => row.getD 0 + 1

/-- A line of the request body. Numbers are exact rationals; an absent property is
`none`. -/
structure BodyLine where
  descr : Option String
  units : Option ℚ
  price : Option ℚ
  vat : Option ℚ

/-- The request body of the invoice endpoints. -/
structure Body where
  name : String
  vat_id : Option String
  comments : Option String
  lines : Option (List BodyLine)

/-- A request after routing. `denied` is the error that `checkAccess` sets when it refuses
the client (`none` when it grants access); `paramsOk` is the result of the call of
`app.checkParams` for the parameter `name` and `paramsMessage` the message it leaves, if
any; `insertError` is the error of the storage when it refuses the `INSERT` of the invoice
(`none` when it accepts it); `today` is `CURRENT_TIMESTAMP`. -/
structure Request where
  denied : Option String
  id : String
  body : Body
  paramsOk : Bool
  paramsMessage : Option String
  insertError : Option String
  today : JsDate

/-- The helper `numdec`, `Number(parseFloat(n).toFixed(2))`, in cents: the nearest
two-decimal value, a tie going away from zero; `NaN` (an absent operand) gives 0. -/
def numdec (n : Option ℚ) : Int :=
  match n with
  | none => 0
  | some q => if q < 0 then -⌊-q * 100 + 1 / 2⌋ else ⌊q * 100 + 1 / 2⌋

/-- The product `(line.units || 1) * line.price`. -/
def linePrice (line : BodyLine) : Option ℚ :=
  match line.price with
  | none => none
  | some p => some ((if line.units.getD 0 ≠ 0 then line.units.getD 0 else 1) * p)

/-- Whether `line.vat` is truthy. -/
def hasVat (line : BodyLine) : Bool := line.vat.getD 0 != 0

/-- Tax amount of a base given in cents: `numdec(price * (line.vat / 100))`. -/
def lineVat (price : Int) (line : BodyLine) : Int :=
  numdec (some ((price : ℚ) / 100 * (line.vat.getD 0 / 100)))

/-- The accumulation over `req.body.lines` that gives `(tvat, bi, total)` of the invoice. -/
def invoiceTotals (lines : List BodyLine) : Int × Int × Int :=
  lines.foldl
    (fun acc line =>
      let price := numdec (linePrice line)
      let bi := acc.2.1 + price
      if hasVat line then
        (acc.1 + lineVat price line, bi, acc.2.2 + (price + lineVat price line))
      else (acc.1, bi, acc.2.2 + price))
    (0, 0, 0)

/-- A row of table `invoice_lines`, amounts in cents. -/
structure InvoiceLine where
  invoice_id : Nat
  num : Nat
  descr : Option String
  units : Option ℚ
  price : Option ℚ
  vat : Option ℚ
  tvat : Int
  bi : Int
  total : Int
  deriving DecidableEq, Repr

/-- The row that the second loop of `insertInvoice` stores for a line. -/
def storedLine (invoice_id num : Nat) (line : BodyLine) : InvoiceLine :=
  let bi := numdec (linePrice line)
  if hasVat line then
    { invoice_id := invoice_id, num := num, descr := line.descr, units := line.units,
      price := line.price, vat := line.vat, tvat := lineVat bi line, bi := bi,
      total := bi + lineVat bi line }
  else
    { invoice_id := invoice_id, num := num, descr := line.descr, units := line.units,
      price := line.price, vat := line.vat, tvat := 0, bi := bi, total := 0 }

/-- State of the request and of the storage after a handler. -/
structure Handled where
  status : Nat
  error : Option String
  invoices : List Invoice
  invoice_lines : List InvoiceLine
  newId : Option Nat

/-- The value of `LAST_INSERT_ID()` after an insert into `invoices`. -/
def lastId (db : List Invoice) : Nat := (db.map fun r => r.id).foldl max 0 + 1

/-- The function `insertInvoice(req, res, type, refs, stype)`, entered with the request
status and error that the caller has set. -/
def insertInvoice (company : Company) (db : List Invoice) (req : Request) (status : Nat)
    (error : Option String) (type : String) (refs : Option (List Invoice))
    (stype : Option String) : Handled :=
  if !req.paramsOk then
    { status := status, error := if truthy req.paramsMessage then req.paramsMessage else error,
      invoices := db, invoice_lines := [], newId := none }
  else
    match req.body.lines with
    | none =>
      { status := 400, error := some "No invoice lines", invoices := db, invoice_lines := [],
        newId := none }
    | some lines =>
      if req.insertError.isSome then
        { status := 400, error := req.insertError, invoices := db, invoice_lines := [],
          newId := none }
      else
        let totals := invoiceTotals lines
        let id := lastId db
        let row : Invoice :=
          { id := id, company_id := company.id, dt := req.today,
            num := nextNum db company req.today.year type, name := trim req.body.name,
            vat_id := if truthy req.body.vat_id then some (cod (req.body.vat_id.getD "")) else none,
            comments := if truthy req.body.comments then some (trim (req.body.comments.getD ""))
              else none,
            verifactu_type := type,
            verifactu_stype := stype, invoice_ref_id := none, tvat := totals.1,
            bi := totals.2.1, total := totals.2.2, voided := false, verifactu_dt := none,
            verifactu_err := none, verifactu_csv := none, fingerprint := none }
        let refIds := (refs.getD []).map fun r => r.id
        { status := 201, error := error,
          invoices := (db ++ [row]).map fun r =>
            if r.id ∈ refIds then { r with invoice_ref_id := some id } else r,
          invoice_lines := lines.enum.map fun p => storedLine id (p.1 + 1) p.2,
          newId := some id }

/-- The four endpoints that issue an invoice referring to earlier ones. -/
inductive RefKind where
  | rect
  | rect2
  | rectsust
  | sust
  deriving DecidableEq, Repr

/-- The condition under which the loop of the endpoint reports a referenced invoice. -/
def refRefused (kind : RefKind) (invoice : Invoice) : Bool :=
  let wrongType :=
    match kind with
    | .rect => !(invoice.verifactu_type == "F1" || invoice.verifactu_type == "F2")
    | .rect2 => invoice.verifactu_type != "F1"
    | .rectsust => !(invoice.verifactu_type == "F1" || invoice.verifactu_type == "F2")
    | .sust => invoice.verifactu_type != "F2"
  wrongType || truthyId invoice.invoice_ref_id || invoice.voided

def refMessage (kind : RefKind) : String :=
  match kind with
  | .rect => "Not type F1/F2, already referenced or voided: "
  | .rect2 => "Not type F1, already referenced or voided: "
  | .rectsust => "Not type F1/F2, already referenced or voided: "
  | .sust => "Not type F2, already referenced or voided: "

/-- Type code of the invoice that the endpoint issues. -/
def refType (kind : RefKind) (body : Body) : String :=
  match kind with
  | .rect => if truthy body.vat_id then "R1" else "R5"
  | .rect2 => "R2"
  | .rectsust => if truthy body.vat_id then "R1" else "R5"
  | .sust => "F3"

def refStype (kind : RefKind) : Option String :=
  match kind with
  | .rect => some "I"
  | .rect2 => some "I"
  | .rectsust => some "S"
  | .sust => none

/-- The loop `for(const invoice of invoices)` of a handler: the status and error it leaves,
each refused invoice overwriting them. -/
def checkLoop (refused : Invoice → Bool) (message : Invoice → String) :
    Nat × Option String → List Invoice → Nat × Option String
  | st, [] => st
  | st, invoice :: rest =>
    checkLoop refused message (if refused invoice then (401, some (message invoice)) else st) rest

/-- The handlers `POST .../invoices/:id/rect`, `rect2`, `rectsust` and `sust`. `selected` is
the result of `SELECT * FROM invoices WHERE id IN(?) AND company_id = ?` (`none` when the
query fails, which makes the loop raise). -/
def refHandler (kind : RefKind) (company : Company) (db : List Invoice) (req : Request)
    (selected : Option (List Invoice)) : Except JsError Handled :=
  if req.denied.isSome then
    .ok { status := 401, error := req.denied, invoices := db, invoice_lines := [],
          newId := none }
  else if req.id.isEmpty || !idListOk req.id then
    .ok { status := 404, error := some "Not found id(s)", invoices := db, invoice_lines := [],
          newId := none }
  else
    match selected with
    | none => .error (.typeError "invoices is not iterable")
    | some invoices =>
      let st := checkLoop (refRefused kind)
        (fun i => refMessage kind ++ numFmt company i) (200, none) invoices
      .ok (insertInvoice company db req st.1 st.2 (refType kind req.body) (some invoices)
        (refStype kind))

/-- What the handler of `PUT .../invoices/:id/voided` does: the request status and the error
that its loop leaves, and the batch passed to `verifactu.voided` when that call is made (the
result of the call then becomes the content of the response). -/
structure VoidHandled where
  status : Nat
  error : Option String
  voidedCall : Option (List Invoice)
  deriving DecidableEq, Repr

/-- The condition under which the loop of the void handler reports an invoice. -/
def voidRefused (invoice : Invoice) : Bool :=
  invoice.voided || invoice.verifactu_dt.isNone || truthyId invoice.invoice_ref_id

/-- The handler `PUT .../invoices/:id/voided`. -/
def voidedHandler (company : Company) (req : Request) (selected : Option (List Invoice)) :
    Except JsError VoidHandled :=
  if req.denied.isSome then
    .ok { status := 401, error := req.denied, voidedCall := none }
  else if req.id.isEmpty || !idListOk req.id then
    .ok { status := 404, error := some "Not found id(s)", voidedCall := none }
  else
    match selected with
    | none => .error (.typeError "invoices is not iterable")
    | some invoices =>
      let st := checkLoop voidRefused
        (fun i => "Already voided, not sent or referenced: " ++ numFmt company i) (200, none)
        invoices
      .ok { status := st.1, error := st.2, voidedCall := some invoices }

/-! ## Record builder

The texts keep the line breaks and the indentation that the template literals of the source
put between elements. -/

/-- The options of the constructor that the records use. -/
structure Options where
  software_company_name : String
  software_company_nif : String
  software_name : String
  software_id : String
  software_version : String
  software_install_number : String

/-- The method `sistemaInformatico()`; the constructor keeps `cod` of the tax id and the first
two characters of the product id. -/
def sistemaInformatico (o : Options) : String :=
  "<SistemaInformatico>\n              <NombreRazon>" ++ o.software_company_name
    ++ "</NombreRazon>\n              <NIF>" ++ cod o.software_company_nif
    ++ "</NIF>\n              <NombreSistemaInformatico>" ++ o.software_name
    ++ "</NombreSistemaInformatico>\n              <IdSistemaInformatico>"
    ++ ⟨o.software_id.data.take 2⟩ ++ "</IdSistemaInformatico>\n              <Version>"
    ++ o.software_version ++ "</Version>\n              <NumeroInstalacion>"
    ++ o.software_install_number ++ "</NumeroInstalacion>\n              "
    ++ "<TipoUsoPosibleSoloVerifactu>N</TipoUsoPosibleSoloVerifactu>\n              "
    ++ "<TipoUsoPosibleMultiOT>S</TipoUsoPosibleMultiOT>\n              "
    ++ "<IndicadorMultiplesOT>S</IndicadorMultiplesOT>\n            "
    ++ "</SistemaInformatico>"

/-- The rows of `SELECT * FROM invoice_lines WHERE invoice_id = ? ORDER BY num`. -/
def linesOf (invoice_lines : List InvoiceLine) (invoice_id : Nat) : List InvoiceLine :=
  (invoice_lines.filter fun l => l.invoice_id == invoice_id).insertionSort
    fun a b => a.num ≤ b.num

/-- One step of `GROUP BY vat` with `SUM(bi)` and `SUM(tvat)`: the line joins the group of
its rate, or opens a new group after the others. -/
def addToGroup (vat : Option ℚ) (bi tvat : Int) :
    List (Option ℚ × Int × Int) → List (Option ℚ × Int × Int)
  | [] => [(vat, bi, tvat)]
  | g :: gs =>
    if g.1 = vat then (g.1, g.2.1 + bi, g.2.2 + tvat) :: gs
    else g :: addToGroup vat bi tvat gs

/-- The rows of `SELECT vat, SUM(bi) AS bi, SUM(tvat) AS tvat FROM invoice_lines WHERE
invoice_id = ? GROUP BY vat`, a group per rate in the order of first appearance. -/
def vatGroups (invoice_lines : List InvoiceLine) (invoice_id : Nat) :
    List (Option ℚ × Int × Int) :=
  (invoice_lines.filter fun l => l.invoice_id == invoice_id).foldl
    (fun groups l => addToGroup l.vat l.bi l.tvat groups) []

/-- The rows of `SELECT * FROM invoices WHERE invoice_ref_id = ? ORDER BY dt`. -/
def referencing (db : List Invoice) (id : Nat) : List Invoice :=
  orderByDt (db.filter fun r => r.invoice_ref_id == some id)

/-- Whether `invoice.verifactu_err` is truthy. -/
def rejected (invoice : Invoice) : Bool := invoice.verifactu_err.getD 0 != 0

/-- The content of the element `Encadenamiento`. -/
def encadenamiento (company : Company) (last : Option ChainLink) : String :=
  match last with
  | some l =>
    "<RegistroAnterior><IDEmisorFactura>" ++ cod company.vat_id
      ++ "</IDEmisorFactura><NumSerieFactura>" ++ l.numFmt
      ++ "</NumSerieFactura><FechaExpedicionFactura>" ++ dt l.dt
      ++ "</FechaExpedicionFactura><Huella>" ++ l.fingerprint.getD "null"
      ++ "</Huella></RegistroAnterior>"
  | none => "<PrimerRegistro>S</PrimerRegistro>"

/-- The method `RegistroAlta(company, invoice, last, dt)`, statement by statement: every
`xml +=` gives the next text. `numberText` is the conversion of a tax rate to text. -/
def RegistroAlta (o : Options) (numberText : ℚ → String) (db : List Invoice)
    (invoice_lines : List InvoiceLine) (company : Company) (invoice : Invoice)
    (last : Option ChainLink) (dtGen : String) : Except JsError String :=
  let descr : String :=
    if truthy invoice.comments then invoice.comments.getD ""
    else
      match linesOf invoice_lines invoice.id with
      | [] => "undefined"
      | l :: _ => l.descr.getD "null"
  let xml0 : String :=
    "<sum:RegistroFactura>\n                 <RegistroAlta>\n                   "
      ++ "<IDVersion>1.0</IDVersion>\n                   "
      ++ "<IDFactura>\n                     <IDEmisorFactura>" ++ cod company.vat_id
      ++ "</IDEmisorFactura>\n                     <NumSerieFactura>"
      ++ numFmt company invoice
      ++ "</NumSerieFactura>\n                     <FechaExpedicionFactura>"
      ++ dt invoice.dt ++ "</FechaExpedicionFactura>\n                   "
      ++ "</IDFactura>\n                   <NombreRazonEmisor>" ++ company.name
      ++ "</NombreRazonEmisor>\n                   "
      ++ (if rejected invoice then "<Subsanacion>S</Subsanacion>" else "")
      ++ "\n                   "
      ++ (if rejected invoice then "<RechazoPrevio>X</RechazoPrevio>" else "")
      ++ "\n                   <TipoFactura>" ++ invoice.verifactu_type ++ "</TipoFactura>"
  let xml1 : String :=
    if invoice.verifactu_type.data.head? = some 'R' ∨ invoice.verifactu_type = "F3" then
      let xa : String :=
        if truthy invoice.verifactu_stype then
          xml0 ++ ("<TipoRectificativa>"
            ++ (if invoice.verifactu_stype = some "S" then "S" else "I")
            ++ "</TipoRectificativa>")
        else xml0
      let tag1 : String :=
        if invoice.verifactu_type = "F3" then "<FacturasSustituidas><IDFacturaSustituida>"
        else "<FacturasRectificadas><IDFacturaRectificada>"
      let tag2 : String :=
        if invoice.verifactu_type = "F3" then "</IDFacturaSustituida></FacturasSustituidas>"
        else "</IDFacturaRectificada></FacturasRectificadas>"
      let rinvoices := referencing db invoice.id
      let xb : String :=
        rinvoices.foldl
          (fun xml rinvoice =>
            xml ++ (tag1 ++ ("<IDEmisorFactura>" ++ cod company.vat_id ++ "</IDEmisorFactura>")
              ++ ("<NumSerieFactura>" ++ numFmt company rinvoice ++ "</NumSerieFactura>")
              ++ ("<FechaExpedicionFactura>" ++ dt rinvoice.dt ++ "</FechaExpedicionFactura>")
              ++ tag2))
          xa
      if invoice.verifactu_stype = some "S" then
        let totals : Int × Int :=
          rinvoices.foldl
            (fun acc rinvoice =>
              (vatGroups invoice_lines rinvoice.id).foldl
                (fun acc2 line => (acc2.1 + line.2.1, acc2.2 + line.2.2)) acc)
            (0, 0)
        xb ++ ("<ImporteRectificacion><BaseRectificada>" ++ cur totals.1
          ++ "</BaseRectificada><CuotaRectificada>" ++ cur totals.2
          ++ "</CuotaRectificada></ImporteRectificacion>")
      else xb
    else xml0
  let xml2 : String := xml1 ++ ("<DescripcionOperacion>" ++ descr ++ "</DescripcionOperacion>")
  let xml3 : String :=
    if invoice.verifactu_type = "F2" then
      xml2 ++ "    <FacturaSimplificadaArt7273>S</FacturaSimplificadaArt7273>"
    else xml2
  let xml4 : String :=
    if !truthy invoice.vat_id then
      xml3 ++ "    <FacturaSinIdentifDestinatarioArt61d>S</FacturaSinIdentifDestinatarioArt61d>"
    else
      xml3 ++ ("<Destinatarios>\n              <IDDestinatario>\n                "
        ++ "<NombreRazon>" ++ invoice.name ++ "</NombreRazon>\n                <NIF>"
        ++ invoice.vat_id.getD ""
        ++ "</NIF>\n              </IDDestinatario>\n            </Destinatarios>")
  let xml5 : String := xml4 ++ "<Desglose>"
  let xml6 : String :=
    (vatGroups invoice_lines invoice.id).foldl
      (fun xml line =>
        xml ++ ("<DetalleDesglose><Impuesto>01</Impuesto>\n            "
          ++ (if line.1.getD 0 ≠ 0 then
                "<ClaveRegimen>01</ClaveRegimen><CalificacionOperacion>S1</CalificacionOperacion>"
                  ++ "<TipoImpositivo>" ++ numberText (line.1.getD 0)
                  ++ "</TipoImpositivo>\n               <BaseImponibleOimporteNoSujeto>"
                  ++ cur line.2.1 ++ "</BaseImponibleOimporteNoSujeto><CuotaRepercutida>"
                  ++ cur line.2.2 ++ "</CuotaRepercutida>"
              else
                "<CalificacionOperacion>N1</CalificacionOperacion>"
                  ++ "<BaseImponibleOimporteNoSujeto>" ++ cur line.2.1
                  ++ "</BaseImponibleOimporteNoSujeto>")
          ++ "</DetalleDesglose>"))
      xml5
  let xml7 : String :=
    xml6 ++ ("</Desglose><CuotaTotal>" ++ cur invoice.tvat ++ "</CuotaTotal><ImporteTotal>"
      ++ cur invoice.total ++ "</ImporteTotal>")
  match fingerprint company invoice last dtGen false with
  | .error e => .error e
  | .ok fp =>
    .ok (xml7 ++ ("<Encadenamiento>" ++ encadenamiento company last ++ "</Encadenamiento>"
      ++ sistemaInformatico o ++ "<FechaHoraHusoGenRegistro>" ++ dtGen
      ++ "</FechaHoraHusoGenRegistro>" ++ ("<TipoHuella>01</TipoHuella><Huella>" ++ fp
      ++ "</Huella></RegistroAlta></sum:RegistroFactura>")))

/-- The method `RegistroAnulacion(company, invoice, last, dt)`. -/
def RegistroAnulacion (o : Options) (company : Company) (invoice : Invoice)
    (last : Option ChainLink) (dtGen : String) : Except JsError String :=
  let xml0 : String :=
    "<sum:RegistroFactura>\n                 " ++ "<RegistroAnulacion>\n                   "
      ++ "<IDVersion>1.0</IDVersion>\n                   "
      ++ "<IDFactura>\n                     <IDEmisorFacturaAnulada>" ++ cod company.vat_id
      ++ "</IDEmisorFacturaAnulada>\n                     <NumSerieFacturaAnulada>"
      ++ numFmt company invoice ++ "</NumSerieFacturaAnulada>\n                     "
      ++ "<FechaExpedicionFacturaAnulada>" ++ dt invoice.dt
      ++ "</FechaExpedicionFacturaAnulada>\n                   "
      ++ "</IDFactura>\n                   "
      ++ (if rejected invoice then "<RechazoPrevio>S</RechazoPrevio>" else "")
  match fingerprint company invoice last dtGen true with
  | .error e => .error e
  | .ok fp =>
    .ok (xml0 ++ ("<Encadenamiento>" ++ encadenamiento company last ++ "</Encadenamiento>"
      ++ sistemaInformatico o ++ "<FechaHoraHusoGenRegistro>" ++ dtGen
      ++ "</FechaHoraHusoGenRegistro>" ++ ("<TipoHuella>01</TipoHuella><Huella>" ++ fp
      ++ "</Huella></RegistroAnulacion></sum:RegistroFactura>")))

/-- The record that the loop of `send` adds to the envelope for a prepared invoice. -/
def recordXml (o : Options) (numberText : ℚ → String) (db : List Invoice)
    (invoice_lines : List InvoiceLine) (company : Company) (isVoid : Bool) (dtGen : String)
    (p : Prepared) : Except JsError String :=
  if isVoid then RegistroAnulacion o company p.invoice p.prev dtGen
  else RegistroAlta o numberText db invoice_lines company p.invoice p.prev dtGen

/-! ## The canonical string of the specification -/

/-- The canonical string in the words of the specification: `key=value` fields, in the
given order, joined by `&`. -/
def canonical (fields : List (String × String)) : String :=
  "&".intercalate (fields.map fun kv => kv.1 ++ "=" ++ kv.2)

/-- The fields of the canonical string in the words of the specification, for each record
kind, with the fingerprint of the previous record and the timestamp. -/
def canonicalFields (company : Company) (invoice : Invoice) (previous dtGen : String)
    (isVoid : Bool) : List (String × String) :=
  if isVoid then
    [("IDEmisorFacturaAnulada", cod company.vat_id),
     ("NumSerieFacturaAnulada", numFmt company invoice),
     ("FechaExpedicionFacturaAnulada", dt invoice.dt),
     ("Huella", previous),
     ("FechaHoraHusoGenRegistro", dtGen)]
  else
    [("IDEmisorFactura", cod company.vat_id),
     ("NumSerieFactura", numFmt company invoice),
     ("FechaExpedicionFactura", dt invoice.dt),
     ("TipoFactura", invoice.verifactu_type),
     ("CuotaTotal", cur invoice.tvat),
     ("ImporteTotal", cur invoice.total),
     ("Huella", previous),
     ("FechaHoraHusoGenRegistro", dtGen)]

/-- The digest of the specification: SHA-256 of the UTF-8 bytes, in upper-case
hexadecimal. -/
def digest (s : String) : String := toUpperCase (Sha256.hex s)

/-- The fingerprint that the loop of `send` hands on as previous fingerprint at each
position of the batch: `start` for the first invoice, then the fingerprint of the invoice
before, computed with the batch timestamp `dtGen`. -/
def prevFingerprints (company : Company) (dtGen : String) (isVoid : Bool) :
    String → List Invoice → List String
  | _, [] => []
  | previous, invoice :: rest =>
    previous :: prevFingerprints company dtGen isVoid
      (digest (canonical (canonicalFields company invoice previous dtGen isVoid))) rest

/-- The previous fingerprint that a prepared invoice carries in its `_prev` link. -/
def prevFp (p : Prepared) : String :=
  match p.prev with
  | some l => l.fingerprint.getD ""
  | none => ""

/-- Whether a query writes the value `v` in column `fingerprint` of the row `id`. -/
def writesFingerprint (id : Nat) (v : String) : Query → Prop
  | .updateInvoice i _ _ _ (some fp) _ => i = id ∧ fp = v
  | _ => False

/-- The update query that the reconciliation issues for an outcome line when the response
carries the presentation timestamp `ts`; `none` for a line that matches no invoice. -/
def lineQuery (company : Company) (isVoid : Bool) (ikeys : List (String × Nat))
    (batch : List Prepared) (r : Respuesta) (dtutc ts : String) (line : RespuestaLinea) :
    Option Query :=
  match findInvoice ikeys batch line.numSerieFactura with
  | none => none
  | some p =>
    some (.updateInvoice p.invoice.id dtutc (toNumber line.codigoErrorRegistro)
      (if truthy r.csv then
        some (trim ((p.invoice.verifactu_csv.getD "") ++ "\n" ++ r.csv.getD ""))
       else none)
      (some (digest (canonical (canonicalFields company p.invoice (prevFp p) ts isVoid))))
      (!truthy line.codigoErrorRegistro && isVoid))

/-- The update query that the reconciliation issues for an outcome line matched to the
prepared invoice `p`, in the words of the specification: the confirmation timestamp, the
error code, the tracking code appended when the response has one, the fingerprint
recomputed with the presentation timestamp when the response has one, and `voided` for a
void batch and a falsy error code. -/
def updateOf (company : Company) (isVoid : Bool) (r : Respuesta) (dtutc : String)
    (line : RespuestaLinea) (p : Prepared) : Query :=
  .updateInvoice p.invoice.id dtutc (toNumber line.codigoErrorRegistro)
    (if truthy r.csv then
      some (trim ((p.invoice.verifactu_csv.getD "") ++ "\n" ++ r.csv.getD ""))
     else none)
    (if truthy r.timestampPresentacion then
      some (digest (canonical (canonicalFields company p.invoice (prevFp p)
        (r.timestampPresentacion.getD "") isVoid)))
     else none)
    (!truthy line.codigoErrorRegistro && isVoid)

/-- The update query of an outcome line; `none` for a line that matches no invoice. -/
def lineUpdate (company : Company) (isVoid : Bool) (ikeys : List (String × Nat))
    (batch : List Prepared) (r : Respuesta) (dtutc : String) (line : RespuestaLinea) :
    Option Query :=
  match findInvoice ikeys batch line.numSerieFactura with
  | none => none
  | some p => some (updateOf company isVoid r dtutc line p)

/-- The entry that an outcome line adds to the list `ok`, if any. -/
def lineOk (ikeys : List (String × Nat)) (batch : List Prepared) (line : RespuestaLinea) :
    Option Entry :=
  match findInvoice ikeys batch line.numSerieFactura with
  | none => none
  | some p =>
    if truthy line.codigoErrorRegistro then none
    else some ⟨some p.invoice.id, line.numSerieFactura, none, none⟩

/-- The entry that an outcome line adds to the list `ko`, if any. -/
def lineKo (ikeys : List (String × Nat)) (batch : List Prepared) (line : RespuestaLinea) :
    Option Entry :=
  match findInvoice ikeys batch line.numSerieFactura with
  | none => some ⟨none, line.numSerieFactura, some "Not exists", none⟩
  | some p =>
    if truthy line.codigoErrorRegistro then
      some ⟨some p.invoice.id, line.numSerieFactura, line.codigoErrorRegistro,
        line.descripcionErrorRegistro⟩
    else none

/-- Position of the last element of a list that equals `s`. -/
def lastPosition (s : String) : List String → Option Nat
  | [] => none
  | x :: xs =>
    match lastPosition s xs with
    | some j => some (j + 1)
    | none => if x = s then some 0 else none

/-- One reference entry in the words of the specification: issuer id, display number and
issue date of a referenced invoice, in the substitution tags or in the rectification
tags. -/
def referenceEntry (company : Company) (substitution : Bool) (rinvoice : Invoice) : String :=
  (if substitution then "<FacturasSustituidas><IDFacturaSustituida>"
   else "<FacturasRectificadas><IDFacturaRectificada>")
    ++ "<IDEmisorFactura>" ++ cod company.vat_id ++ "</IDEmisorFactura>"
    ++ "<NumSerieFactura>" ++ numFmt company rinvoice ++ "</NumSerieFactura>"
    ++ "<FechaExpedicionFactura>" ++ dt rinvoice.dt ++ "</FechaExpedicionFactura>"
    ++ (if substitution then "</IDFacturaSustituida></FacturasSustituidas>"
        else "</IDFacturaRectificada></FacturasRectificadas>")

/-- Totals of the lines of the referenced invoices, summed group by group. -/
def rectifiedTotals (invoice_lines : List InvoiceLine) (rinvoices : List Invoice) : Int × Int :=
  rinvoices.foldl
    (fun acc rinvoice =>
      (vatGroups invoice_lines rinvoice.id).foldl
        (fun acc2 line => (acc2.1 + line.2.1, acc2.2 + line.2.2)) acc)
    (0, 0)

/-- The referenced-invoice section in the words of the specification: nothing unless the
type code starts with `R` or is `F3`; else the marker `TipoRectificativa` for a non-empty
`verifactu_stype` (`S` for `S`, `I` otherwise), one reference entry per invoice that refers
to this one, in the order in which the storage returns them, and the block
`ImporteRectificacion` when `verifactu_stype` is `S`. -/
def referencedSection (db : List Invoice) (invoice_lines : List InvoiceLine)
    (company : Company) (invoice : Invoice) : String :=
  if invoice.verifactu_type.data.head? = some 'R' ∨ invoice.verifactu_type = "F3" then
    (if truthy invoice.verifactu_stype then
      "<TipoRectificativa>" ++ (if invoice.verifactu_stype = some "S" then "S" else "I")
        ++ "</TipoRectificativa>"
     else "")
    ++ String.join ((referencing db invoice.id).map
        (referenceEntry company (invoice.verifactu_type = "F3")))
    ++ (if invoice.verifactu_stype = some "S" then
          "<ImporteRectificacion><BaseRectificada>"
            ++ cur (rectifiedTotals invoice_lines (referencing db invoice.id)).1
            ++ "</BaseRectificada><CuotaRectificada>"
            ++ cur (rectifiedTotals invoice_lines (referencing db invoice.id)).2
            ++ "</CuotaRectificada></ImporteRectificacion>"
        else "")
  else ""

/-- What `RegistroAlta` emits before the referenced-invoice section: from the start of the
record to the element `TipoFactura`. -/
def registroAltaHead (company : Company) (invoice : Invoice) : String :=
  "<sum:RegistroFactura>\n                 <RegistroAlta>\n                   "
    ++ "<IDVersion>1.0</IDVersion>\n                   "
    ++ "<IDFactura>\n                     <IDEmisorFactura>" ++ cod company.vat_id
    ++ "</IDEmisorFactura>\n                     <NumSerieFactura>" ++ numFmt company invoice
    ++ "</NumSerieFactura>\n                     <FechaExpedicionFactura>" ++ dt invoice.dt
    ++ "</FechaExpedicionFactura>\n                   "
    ++ "</IDFactura>\n                   <NombreRazonEmisor>" ++ company.name
    ++ "</NombreRazonEmisor>\n                   "
    ++ (if rejected invoice then "<Subsanacion>S</Subsanacion>" else "")
    ++ "\n                   "
    ++ (if rejected invoice then "<RechazoPrevio>X</RechazoPrevio>" else "")
    ++ "\n                   <TipoFactura>" ++ invoice.verifactu_type ++ "</TipoFactura>"

/-- What `RegistroAlta` emits after the referenced-invoice section, from the element
`DescripcionOperacion` to the end of the record, for the fingerprint `fp`. -/
def registroAltaTail (o : Options) (numberText : ℚ → String)
    (invoice_lines : List InvoiceLine) (company : Company) (invoice : Invoice)
    (last : Option ChainLink) (dtGen fp : String) : String :=
  "<DescripcionOperacion>"
    ++ (if truthy invoice.comments then invoice.comments.getD ""
        else
          match linesOf invoice_lines invoice.id with
          | [] => "undefined"
          | l :: _ => l.descr.getD "null")
    ++ "</DescripcionOperacion>"
    ++ (if invoice.verifactu_type = "F2" then
          "    <FacturaSimplificadaArt7273>S</FacturaSimplificadaArt7273>"
        else "")
    ++ (if !truthy invoice.vat_id then
          "    <FacturaSinIdentifDestinatarioArt61d>S</FacturaSinIdentifDestinatarioArt61d>"
        else
          "<Destinatarios>\n              <IDDestinatario>\n                "
            ++ "<NombreRazon>" ++ invoice.name ++ "</NombreRazon>\n                <NIF>"
            ++ invoice.vat_id.getD ""
            ++ "</NIF>\n              </IDDestinatario>\n            </Destinatarios>")
    ++ "<Desglose>"
    ++ String.join ((vatGroups invoice_lines invoice.id).map fun line =>
        "<DetalleDesglose><Impuesto>01</Impuesto>\n            "
          ++ (if line.1.getD 0 ≠ 0 then
                "<ClaveRegimen>01</ClaveRegimen><CalificacionOperacion>S1</CalificacionOperacion>"
                  ++ "<TipoImpositivo>" ++ numberText (line.1.getD 0)
                  ++ "</TipoImpositivo>\n               <BaseImponibleOimporteNoSujeto>"
                  ++ cur line.2.1 ++ "</BaseImponibleOimporteNoSujeto><CuotaRepercutida>"
                  ++ cur line.2.2 ++ "</CuotaRepercutida>"
              else
                "<CalificacionOperacion>N1</CalificacionOperacion>"
                  ++ "<BaseImponibleOimporteNoSujeto>" ++ cur line.2.1
                  ++ "</BaseImponibleOimporteNoSujeto>")
          ++ "</DetalleDesglose>")
    ++ "</Desglose><CuotaTotal>" ++ cur invoice.tvat ++ "</CuotaTotal><ImporteTotal>"
    ++ cur invoice.total ++ "</ImporteTotal>"
    ++ "<Encadenamiento>" ++ encadenamiento company last ++ "</Encadenamiento>"
    ++ sistemaInformatico o ++ "<FechaHoraHusoGenRegistro>" ++ dtGen
    ++ "</FechaHoraHusoGenRegistro>" ++ "<TipoHuella>01</TipoHuella><Huella>" ++ fp
    ++ "</Huella></RegistroAlta></sum:RegistroFactura>"

/-- The sixteen upper-case hexadecimal digits. -/
def upperHexDigits : List Char := "0123456789ABCDEF".data

/-! ## Example data -/

/-- A company with no numbering formula and no first number. -/
def acme : Company :=
  { id := 1, name := "ACME", vat_id := "B12345678", test := true, first_num := none,
    formula := none, formula_r := none }

/-- A pending invoice of `acme`: no chain field is set. -/
def pendingInvoice (id num : Nat) (type : String) : Invoice :=
  { id := id, company_id := 1, dt := ⟨2025, 3, 7⟩, num := num, name := "Client",
    vat_id := some "A1", comments := none, verifactu_type := type, verifactu_stype := none,
    invoice_ref_id := none, tvat := 2100, bi := 10000, total := 12100, voided := false,
    verifactu_dt := none, verifactu_err := none, verifactu_csv := none, fingerprint := none }

/-- A batch of two pending invoices. -/
def sampleBatch : List Invoice := [pendingInvoice 2 2 "F1", pendingInvoice 3 3 "F1"]

/-- A confirmed invoice of `acme`, the last link of its chain. -/
def confirmedInvoice : Invoice :=
  { pendingInvoice 1 1 "F1" with
    verifactu_dt := some "2025-03-07 09:00:00"
    verifactu_err := some 0
    fingerprint := some "3C464DAF61ACB827C65FDA19F352A4E3BDC2C640E9E9FC4CC058073F38F12F60" }

/-- Table `invoices` before the sample batch is sent. -/
def sampleTable : List Invoice := confirmedInvoice :: sampleBatch

/-- A batch timestamp; the conversion to UTC is not looked at. -/
def sampleHost : Host := { now := "2025-03-08T10:00:00+01:00", toUtc := fun t => t }

/-- A response that accepts both invoices of `sampleBatch` and carries a presentation
timestamp. -/
def sampleRespuesta : Respuesta :=
  { csv := some "CSV1", tiempoEsperaEnvio := some "60",
    timestampPresentacion := some "2025-03-08T10:00:07+01:00",
    lineas := [⟨some "2", some "Alta", some "Correcto", none, none⟩,
               ⟨some "3", some "Alta", some "Correcto", none, none⟩] }

/-- Table `invoices` after a call of `send` that started on `db`. -/
def tableAfter (db : List Invoice) (outcome : Except JsError SendOutcome) : List Invoice :=
  match outcome with
  | .ok out => out.queries.foldl applyQuery db
  | .error _ => db

/-- A request of the endpoints on invoice 2, with a body of one line. -/
def sampleRequest : Request :=
  { denied := none, id := "2",
    body := { name := "Client", vat_id := none, comments := none,
              lines := some [{ descr := some "Item", units := some 1, price := some 10,
                               vat := some 21 }] },
    paramsOk := true, paramsMessage := none, insertError := none, today := ⟨2025, 3, 8⟩ }

/-- A response that accepts the voiding of invoice 2. -/
def sampleVoidRespuesta : Respuesta :=
  { csv := none, tiempoEsperaEnvio := some "60", timestampPresentacion := none,
    lineas := [⟨some "2", some "Anulacion", some "Correcto", none, none⟩] }

/-- A response with a presentation timestamp that rejects invoice 2 with an error code and
accepts invoice 3. -/
def sampleRejectRespuesta : Respuesta :=
  { csv := some "CSV1", tiempoEsperaEnvio := some "60",
    timestampPresentacion := some "2025-03-08T10:00:07+01:00",
    lineas := [⟨some "2", some "Alta", some "Incorrecto", some "4102", some "Error"⟩,
               ⟨some "3", some "Alta", some "Correcto", none, none⟩] }

/-- An outcome line for a display number that no invoice of `sampleBatch` has. -/
def sampleUnknownLine : RespuestaLinea :=
  ⟨some "99", some "Alta", some "Incorrecto", some "4102", some "Error"⟩

/-- A response to the voiding of invoice 1 whose line carries the error code 0 as the text
`0`. -/
def sampleZeroCodeRespuesta : Respuesta :=
  { csv := none, tiempoEsperaEnvio := some "60", timestampPresentacion := none,
    lineas := [⟨some "1", some "Anulacion", some "Correcto", some "0", none⟩] }

/-- A response to the voiding of invoice 1 whose line has no error-code element. -/
def sampleNoCodeRespuesta : Respuesta :=
  { csv := none, tiempoEsperaEnvio := some "60", timestampPresentacion := none,
    lineas := [⟨some "1", some "Anulacion", some "Correcto", none, none⟩] }

/-- What a sweep of `pending` resolves to, company by company: the result and the number of
records built. -/
def sweepOf (outcome : Except JsError (List (Nat × SendOutcome))) :
    Option (List (Nat × SendResult × Nat)) :=
  match outcome with
  | .ok l => some (l.map fun p => (p.1, p.2.result, p.2.records.length))
  | .error _ => none

/-- The chain columns of the rows of a table: id, `verifactu_dt` and `verifactu_err`. -/
def chainColumns (table : List Invoice) : List (Nat × Option String × Option Nat) :=
  table.map fun r => (r.id, r.verifactu_dt, r.verifactu_err)

/-- A request body with a line at the rate 0, a line with no rate and a line at 21 %. -/
def sampleLines : List BodyLine :=
  [{ descr := some "Exempt", units := some 1, price := some 10, vat := some 0 },
   { descr := some "No rate", units := some 2, price := some 5, vat := none },
   { descr := some "Taxed", units := some 1, price := some 10, vat := some 21 }]

/-- The amounts of the stored lines: `(bi, tvat, total)`. -/
def lineAmounts (lines : List InvoiceLine) : List (Int × Int × Int) :=
  lines.map fun l => (l.bi, l.tvat, l.total)

/-- A request to issue an invoice with the lines of `sampleLines`. -/
def sampleLinesRequest : Request :=
  { sampleRequest with
    body := { name := "Client", vat_id := none, comments := none, lines := some sampleLines } }

/-- The amounts of the rows of `invoices`: id and `(tvat, bi, total)`. -/
def invoiceAmounts (table : List Invoice) : List (Nat × Int × Int × Int) :=
  table.map fun r => (r.id, r.tvat, r.bi, r.total)

/-- A batch of two invoices of different years with the number 1: under the default
template both have the display number `1`. -/
def sampleTwinBatch : List Invoice :=
  [{ pendingInvoice 2 1 "F1" with dt := ⟨2024, 12, 30⟩ }, pendingInvoice 3 1 "F1"]

/-- A response with one line for the display number `1`. -/
def sampleTwinRespuesta : Respuesta :=
  { csv := none, tiempoEsperaEnvio := some "60", timestampPresentacion := none,
    lineas := [⟨some "1", some "Alta", some "Correcto", none, none⟩] }

/-- The summary that a call of `send` resolves to. -/
def summaryOf (outcome : Except JsError SendOutcome) : Option Summary :=
  match outcome with
  | .ok out =>
    match out.result with
    | .summary s => some s
    | _ => none
  | .error _ => none

/-- The update queries that a call of `send` issues. -/
def queriesOf (outcome : Except JsError SendOutcome) : Option (List Query) :=
  match outcome with
  | .ok out => some out.queries
  | .error _ => none

/-- What a handler leaves: the status, the new row id, and the `invoice_ref_id` of each
row. -/
def handledRefs (h : Except JsError Handled) : Option (Nat × Option Nat × List (Nat × Option Nat)) :=
  match h with
  | .ok r => some (r.status, r.newId, r.invoices.map fun i => (i.id, i.invoice_ref_id))
  | .error _ => none

end Verifactu

/-! ## Properties -/

namespace Verifactu

/-! ### Shape of the digest -/

theorem length_flatMap_const {α β : Type} (f : α → List β) (k : Nat) :
    ∀ l : List α, (∀ x ∈ l, (f x).length = k) → (l.flatMap f).length = k * l.length
  | [], _ => by simp
  | x :: xs, h => by
    have hx : (f x).length = k := h x (List.mem_cons_self x xs)
    have ih := length_flatMap_const f k xs (fun y hy => h y (List.mem_cons_of_mem x hy))
    simp [List.flatMap_cons, hx, ih, Nat.mul_succ, Nat.add_comm]

theorem compress_length (st block : List Nat) :
    (Sha256.compress st block).length = min st.length 8 := by
  simp [Sha256.compress]

theorem foldl_compress_length :
    ∀ (bl : List (List Nat)) (st : List Nat), st.length = 8 →
      (bl.foldl Sha256.compress st).length = 8
  | [], _, h => h
  | b :: bl, st, h => by
    simp only [List.foldl_cons]
    exact foldl_compress_length bl _ (by rw [compress_length, h]; rfl)

theorem digestWords_length (m : List Nat) : (Sha256.digestWords m).length = 8 := by
  unfold Sha256.digestWords
  exact foldl_compress_length _ _ rfl

theorem beBytes_length : ∀ k n : Nat, (Sha256.beBytes k n).length = k
  | 0, _ => rfl
  | k + 1, n => by simp [Sha256.beBytes, beBytes_length k n]

theorem beBytes_lt : ∀ (k n b : Nat), b ∈ Sha256.beBytes k n → b < 256
  | 0, _, _, h => by simp [Sha256.beBytes] at h
  | k + 1, n, b, h => by
    simp only [Sha256.beBytes, List.mem_cons] at h
    rcases h with h | h
    · subst h; exact Nat.mod_lt _ (by decide)
    · exact beBytes_lt k n b h

/-- The upper-case form of a lower-case hexadecimal digit is one upper-case hexadecimal
digit. -/
theorem upperChar_hexDigit :
    ∀ n, n < 16 → ∃ c, c ∈ upperHexDigits ∧ upperChar (Sha256.hexDigit n) = [c] := by
  decide

theorem hexWord_length (w : Nat) : (Sha256.hexWord w).length = 8 := by
  have h := length_flatMap_const
    (fun b => [Sha256.hexDigit (b / 16), Sha256.hexDigit (b % 16)]) 2 (Sha256.beBytes 4 w)
    (fun _ _ => rfl)
  rw [beBytes_length] at h
  exact h

theorem hexWord_digit (w : Nat) (c : Char) (h : c ∈ Sha256.hexWord w) :
    ∃ u, u ∈ upperHexDigits ∧ upperChar c = [u] := by
  unfold Sha256.hexWord at h
  rw [List.mem_flatMap] at h
  obtain ⟨b, hb, hc⟩ := h
  have hlt := beBytes_lt 4 w b hb
  simp only [List.mem_cons, List.mem_singleton, List.not_mem_nil, or_false] at hc
  rcases hc with hc | hc
  · subst hc; exact upperChar_hexDigit _ (by omega)
  · subst hc; exact upperChar_hexDigit _ (by omega)

theorem flatMap_upperChar :
    ∀ l : List Char, (∀ c ∈ l, ∃ u, u ∈ upperHexDigits ∧ upperChar c = [u]) →
      (l.flatMap upperChar).length = l.length ∧ ∀ c ∈ l.flatMap upperChar, c ∈ upperHexDigits
  | [], _ => by simp
  | x :: xs, h => by
    obtain ⟨u, hu, hx⟩ := h x (List.mem_cons_self x xs)
    obtain ⟨hl, hm⟩ := flatMap_upperChar xs (fun y hy => h y (List.mem_cons_of_mem x hy))
    constructor
    · simp [List.flatMap_cons, hx, hl, Nat.add_comm]
    · intro c hc
      simp only [List.flatMap_cons, hx, List.singleton_append, List.mem_cons] at hc
      rcases hc with hc | hc
      · subst hc; exact hu
      · exact hm c hc

/-- The upper-cased digest is 64 upper-case hexadecimal digits. -/
theorem upperHex_shape (s : String) :
    (toUpperCase (Sha256.hex s)).data.length = 64 ∧
      ∀ c ∈ (toUpperCase (Sha256.hex s)).data, c ∈ upperHexDigits := by
  have hlen : (Sha256.hex s).data.length = 64 := by
    show ((Sha256.digestWords (Sha256.utf8 s)).flatMap Sha256.hexWord).length = 64
    rw [length_flatMap_const _ 8 _ (fun w _ => hexWord_length w), digestWords_length]
  have hdig : ∀ c ∈ (Sha256.hex s).data, ∃ u, u ∈ upperHexDigits ∧ upperChar c = [u] := by
    intro c hc
    have hc2 : c ∈ (Sha256.digestWords (Sha256.utf8 s)).flatMap Sha256.hexWord := hc
    rw [List.mem_flatMap] at hc2
    obtain ⟨w, _, hw⟩ := hc2
    exact hexWord_digit w c hw
  obtain ⟨h1, h2⟩ := flatMap_upperChar _ hdig
  exact ⟨by show ((Sha256.hex s).data.flatMap upperChar).length = 64; rw [h1, hlen], h2⟩

/-! ### Fingerprint engine -/

theorem canonical_void (a b c d e : String) :
    canonical [("IDEmisorFacturaAnulada", a), ("NumSerieFacturaAnulada", b),
      ("FechaExpedicionFacturaAnulada", c), ("Huella", d), ("FechaHoraHusoGenRegistro", e)]
    = "IDEmisorFacturaAnulada=" ++ a ++ "&NumSerieFacturaAnulada=" ++ b
      ++ "&FechaExpedicionFacturaAnulada=" ++ c ++ "&Huella=" ++ d
      ++ "&FechaHoraHusoGenRegistro=" ++ e := by
  apply String.ext
  simp [canonical, String.intercalate, String.intercalate.go, String.data_append]

theorem canonical_alta (a b c d e f g h : String) :
    canonical [("IDEmisorFactura", a), ("NumSerieFactura", b), ("FechaExpedicionFactura", c),
      ("TipoFactura", d), ("CuotaTotal", e), ("ImporteTotal", f), ("Huella", g),
      ("FechaHoraHusoGenRegistro", h)]
    = "IDEmisorFactura=" ++ a ++ "&NumSerieFactura=" ++ b ++ "&FechaExpedicionFactura=" ++ c
      ++ "&TipoFactura=" ++ d ++ "&CuotaTotal=" ++ e ++ "&ImporteTotal=" ++ f ++ "&Huella=" ++ g
      ++ "&FechaHoraHusoGenRegistro=" ++ h := by
  apply String.ext
  simp [canonical, String.intercalate, String.intercalate.go, String.data_append]

theorem fingerprint_some (company : Company) (invoice : Invoice) (last : ChainLink)
    (dtGen : String) (isVoid : Bool) :
    fingerprint company invoice (some last) dtGen isVoid
      = .ok (digest (canonical
          (canonicalFields company invoice (last.fingerprint.getD "") dtGen isVoid))) := by
  cases isVoid
  · simp [fingerprint, canonicalFields, canonical_alta, digest]
  · simp [fingerprint, canonicalFields, canonical_void, digest]

/-- C1. With a previous chain link, `fingerprint` returns the upper-case hexadecimal SHA-256
digest (64 digits among `0-9A-F`) of the canonical string of the record kind: the
`key=value` fields of the specification, in its order, joined by `&`, where the field
`Huella` is the fingerprint of the previous link (empty when the link carries none) and
the last field is the timestamp. The value depends on the arguments only. -/
theorem fingerprint_is_digest_of_canonical (company : Company) (invoice : Invoice)
    (last : ChainLink) (dtGen : String) (isVoid : Bool) :
    fingerprint company invoice (some last) dtGen isVoid
        = .ok (toUpperCase (Sha256.hex (canonical
            (canonicalFields company invoice (last.fingerprint.getD "") dtGen isVoid))))
      ∧ (∀ h, fingerprint company invoice (some last) dtGen isVoid = .ok h →
          h.data.length = 64 ∧ ∀ c ∈ h.data, c ∈ upperHexDigits) := by
  refine ⟨fingerprint_some company invoice last dtGen isVoid, ?_⟩
  intro h hh
  rw [fingerprint_some] at hh
  cases hh
  exact upperHex_shape _

/-! ### Batch loop -/

/-- With a previous link the loop of `send` raises nothing: it prepares every invoice of the
batch, in order, each with a link whose fingerprint is the one of `prevFingerprints`. -/
theorem buildRecords_some (company : Company) (dtGen : String) (isVoid : Bool) :
    ∀ (invoices : List Invoice) (l : ChainLink),
      ∃ batch, buildRecords company dtGen isVoid (some l) invoices = .ok batch
        ∧ batch.map (fun p => p.invoice) = invoices
        ∧ batch.map prevFp
            = prevFingerprints company dtGen isVoid (l.fingerprint.getD "") invoices
        ∧ ∀ p ∈ batch, ∃ l1, p.prev = some l1
  | [], _ => ⟨[], rfl, rfl, rfl, by simp⟩
  | invoice :: rest, l => by
    obtain ⟨tail, h1, h2, h3, h4⟩ := buildRecords_some company dtGen isVoid rest
      (nextLink company invoice (digest (canonical
        (canonicalFields company invoice (l.fingerprint.getD "") dtGen isVoid))))
    refine ⟨{ invoice := invoice, prev := some l } :: tail, ?_, ?_, ?_, ?_⟩
    · simp only [buildRecords, fingerprint_some, h1]
    · simp [h2]
    · simpa [prevFingerprints, prevFp, nextLink] using h3
    · intro p hp
      rcases List.mem_cons.1 hp with hp | hp
      · exact ⟨l, by rw [hp]⟩
      · exact h4 p hp

/-! ### Outcome index -/

theorem ikeysFrom_lookup_not_mem (company : Company) :
    ∀ (invoices : List Invoice) (key : Nat) (ikeys : List (String × Nat)) (s : String),
      s ∉ invoices.map (numFmt company) →
        (ikeysFrom company key invoices ikeys).lookup s = ikeys.lookup s
  | [], _, _, _, _ => rfl
  | invoice :: rest, key, ikeys, s, h => by
    simp only [List.map_cons, List.mem_cons, not_or] at h
    rw [ikeysFrom, ikeysFrom_lookup_not_mem company rest _ _ s h.2, List.lookup_cons]
    have : (s == numFmt company invoice) = false := by simpa using h.1
    rw [this]

theorem ikeysFrom_lookup_nodup (company : Company) :
    ∀ (invoices : List Invoice) (key : Nat) (ikeys : List (String × Nat)) (j : Nat)
      (inv : Invoice), (invoices.map (numFmt company)).Nodup → invoices[j]? = some inv →
        (ikeysFrom company key invoices ikeys).lookup (numFmt company inv) = some (key + j)
  | [], _, _, _, _, _, h => by simp at h
  | invoice :: rest, key, ikeys, 0, inv, hn, h => by
    simp only [List.getElem?_cons_zero, Option.some.injEq] at h
    subst h
    simp only [List.map_cons, List.nodup_cons] at hn
    rw [ikeysFrom, ikeysFrom_lookup_not_mem company rest _ _ _ hn.1]
    simp
  | invoice :: rest, key, ikeys, j + 1, inv, hn, h => by
    simp only [List.getElem?_cons_succ] at h
    simp only [List.map_cons, List.nodup_cons] at hn
    rw [ikeysFrom, ikeysFrom_lookup_nodup company rest (key + 1) _ j inv hn.2 h]
    congr 1
    omega

/-! ### Reconciliation -/

theorem reconcileLine_some (company : Company) (isVoid : Bool) (ikeys : List (String × Nat))
    (batch : List Prepared) (r : Respuesta) (dtutc ts : String)
    (hts : r.timestampPresentacion = some ts) (hne : ts ≠ "")
    (hprev : ∀ p ∈ batch, ∃ l, p.prev = some l) (st : Summary × List Query)
    (line : RespuestaLinea) :
    ∃ s, reconcileLine company isVoid ikeys batch r dtutc st line
      = .ok (s, st.2 ++ (lineQuery company isVoid ikeys batch r dtutc ts line).toList) := by
  unfold reconcileLine lineQuery
  cases hf : findInvoice ikeys batch line.numSerieFactura with
  | none =>
    refine ⟨⟨st.1.ok, st.1.ko ++ [⟨none, line.numSerieFactura, some "Not exists", none⟩]⟩, ?_⟩
    simp
  | some p =>
    have hp : p ∈ batch := by
      unfold findInvoice at hf
      split at hf
      · exact List.get?_mem hf
      · cases hf
    obtain ⟨l, hl⟩ := hprev p hp
    have htr : truthy (some ts) = true := by simp [truthy, hne]
    refine ⟨(if truthy line.codigoErrorRegistro then
        ⟨st.1.ok, st.1.ko ++ [⟨some p.invoice.id, line.numSerieFactura,
          line.codigoErrorRegistro, line.descripcionErrorRegistro⟩]⟩
      else ⟨st.1.ok ++ [⟨some p.invoice.id, line.numSerieFactura, none, none⟩], st.1.ko⟩), ?_⟩
    simp only [hts, htr, hl, fingerprint_some, prevFp, if_true, Option.getD_some,
      Option.toList_some]

theorem reconcileLines_some (company : Company) (isVoid : Bool) (ikeys : List (String × Nat))
    (batch : List Prepared) (r : Respuesta) (dtutc ts : String)
    (hts : r.timestampPresentacion = some ts) (hne : ts ≠ "")
    (hprev : ∀ p ∈ batch, ∃ l, p.prev = some l) :
    ∀ (lines : List RespuestaLinea) (st : Summary × List Query),
      ∃ s, reconcileLines company isVoid ikeys batch r dtutc st lines
        = .ok (s, st.2 ++ lines.filterMap (lineQuery company isVoid ikeys batch r dtutc ts))
  | [], st => ⟨st.1, by simp [reconcileLines]⟩
  | line :: rest, st => by
    obtain ⟨s1, h1⟩ := reconcileLine_some company isVoid ikeys batch r dtutc ts hts hne hprev
      st line
    obtain ⟨s2, h2⟩ := reconcileLines_some company isVoid ikeys batch r dtutc ts hts hne hprev
      rest (s1, st.2 ++ (lineQuery company isVoid ikeys batch r dtutc ts line).toList)
    refine ⟨s2, ?_⟩
    rw [reconcileLines, h1]
    simp only [h2]
    cases hq : lineQuery company isVoid ikeys batch r dtutc ts line <;>
      simp [List.filterMap_cons, hq]

/-! ### Persisted fingerprint -/

theorem persistedFingerprint_writes (id : Nat) :
    ∀ (qs : List Query) (w : String), persistedFingerprint id qs = some w →
      ∃ q ∈ qs, writesFingerprint id w q
  | [], _, h => by simp [persistedFingerprint] at h
  | .setNextSend a b :: qs, w, h => by
    obtain ⟨q, hq, hw⟩ := persistedFingerprint_writes id qs w (by simpa [persistedFingerprint] using h)
    exact ⟨q, List.mem_cons_of_mem _ hq, hw⟩
  | .updateInvoice i a b c none d :: qs, w, h => by
    obtain ⟨q, hq, hw⟩ := persistedFingerprint_writes id qs w (by simpa [persistedFingerprint] using h)
    exact ⟨q, List.mem_cons_of_mem _ hq, hw⟩
  | .updateInvoice i a b c (some fp) d :: qs, w, h => by
    simp only [persistedFingerprint] at h
    cases hrec : persistedFingerprint id qs with
    | some later =>
      rw [hrec] at h
      obtain ⟨q, hq, hw⟩ := persistedFingerprint_writes id qs later hrec
      simp only [Option.some.injEq] at h
      subst h
      exact ⟨q, List.mem_cons_of_mem _ hq, hw⟩
    | none =>
      rw [hrec] at h
      by_cases hi : i = id
      · simp only [hi, if_true, Option.some.injEq] at h
        exact ⟨_, List.mem_cons_self _ _, ⟨hi, h⟩⟩
      · simp [hi] at h

theorem persistedFingerprint_none (id : Nat) (v : String) :
    ∀ qs : List Query, (∃ q ∈ qs, writesFingerprint id v q) → persistedFingerprint id qs ≠ none
  | [], h => by simp at h
  | .setNextSend a b :: qs, h => by
    obtain ⟨q, hq, hw⟩ := h
    rcases List.mem_cons.1 hq with hq | hq
    · subst hq; exact absurd hw (by simp [writesFingerprint])
    · simpa [persistedFingerprint] using persistedFingerprint_none id v qs ⟨q, hq, hw⟩
  | .updateInvoice i a b c none d :: qs, h => by
    obtain ⟨q, hq, hw⟩ := h
    rcases List.mem_cons.1 hq with hq | hq
    · subst hq; exact absurd hw (by simp [writesFingerprint])
    · simpa [persistedFingerprint] using persistedFingerprint_none id v qs ⟨q, hq, hw⟩
  | .updateInvoice i a b c (some fp) d :: qs, h => by
    obtain ⟨q, hq, hw⟩ := h
    simp only [persistedFingerprint]
    cases hrec : persistedFingerprint id qs with
    | some later => simp
    | none =>
      rcases List.mem_cons.1 hq with hq | hq
      · subst hq
        simp only [writesFingerprint] at hw
        simp [hw.1]
      · exact absurd hrec (persistedFingerprint_none id v qs ⟨q, hq, hw⟩)

/-- When some query writes `v` on the row and every write on the row writes `v`, the value
left on the row is `v`. -/
theorem persistedFingerprint_eq (id : Nat) (v : String) (qs : List Query)
    (hex : ∃ q ∈ qs, writesFingerprint id v q)
    (hall : ∀ q ∈ qs, ∀ w, writesFingerprint id w q → w = v) :
    persistedFingerprint id qs = some v := by
  cases h : persistedFingerprint id qs with
  | none => exact absurd h (persistedFingerprint_none id v qs hex)
  | some w =>
    obtain ⟨q, hq, hw⟩ := persistedFingerprint_writes id qs w h
    rw [hall q hq w hw]

/-! ### From the update queries to the table -/

theorem applyQuery_find (db : List Invoice) (q : Query) (id : Nat) :
    ((applyQuery db q).find? fun r => r.id == id).isSome
      = (db.find? fun r => r.id == id).isSome := by
  cases q with
  | setNextSend a b => rfl
  | updateInvoice i vdt err csv fp vd =>
    simp only [applyQuery, List.find?_map]
    have : ((fun r : Invoice => r.id == id) ∘ fun r : Invoice =>
        if r.id = i then
          { r with
            verifactu_dt := some vdt
            verifactu_err := some err
            verifactu_csv := if csv.isSome then csv else r.verifactu_csv
            fingerprint := if fp.isSome then fp else r.fingerprint
            voided := if vd then true else r.voided }
        else r) = fun r : Invoice => r.id == id := by
      funext r
      by_cases h : r.id = i <;> simp [h]
    rw [this]
    cases db.find? fun r => r.id == id <;> rfl

theorem fingerprintIn_applyQuery_other (db : List Invoice) (id i : Nat) (vdt : String)
    (err : Nat) (csv fp : Option String) (vd : Bool) (h : i ≠ id ∨ fp = none) :
    fingerprintIn (applyQuery db (.updateInvoice i vdt err csv fp vd)) id
      = fingerprintIn db id := by
  simp only [fingerprintIn, applyQuery, List.find?_map]
  have hcomp : ((fun r : Invoice => r.id == id) ∘ fun r : Invoice =>
      if r.id = i then
        { r with
          verifactu_dt := some vdt
          verifactu_err := some err
          verifactu_csv := if csv.isSome then csv else r.verifactu_csv
          fingerprint := if fp.isSome then fp else r.fingerprint
          voided := if vd then true else r.voided }
      else r) = fun r : Invoice => r.id == id := by
    funext r
    by_cases h : r.id = i <;> simp [h]
  rw [hcomp]
  cases hf : db.find? fun r => r.id == id with
  | none => rfl
  | some r =>
    have hr : r.id = id := by simpa using List.find?_some hf
    simp only [Option.map_some']
    rcases h with h | h
    · have : ¬ r.id = i := by rw [hr]; exact fun e => h e.symm
      simp [this]
    · subst h
      by_cases hi : r.id = i <;> simp [hi]

theorem fingerprintIn_applyQuery_same (db : List Invoice) (id : Nat) (vdt : String)
    (err : Nat) (csv : Option String) (fp : String) (vd : Bool)
    (hrow : (db.find? fun r => r.id == id).isSome) :
    fingerprintIn (applyQuery db (.updateInvoice id vdt err csv (some fp) vd)) id = some fp := by
  simp only [fingerprintIn, applyQuery, List.find?_map]
  have hcomp : ((fun r : Invoice => r.id == id) ∘ fun r : Invoice =>
      if r.id = id then
        { r with
          verifactu_dt := some vdt
          verifactu_err := some err
          verifactu_csv := if csv.isSome then csv else r.verifactu_csv
          fingerprint := if (some fp).isSome then some fp else r.fingerprint
          voided := if vd then true else r.voided }
      else r) = fun r : Invoice => r.id == id := by
    funext r
    by_cases h : r.id = id <;> simp [h]
  rw [hcomp]
  cases hf : db.find? fun r => r.id == id with
  | none => simp [hf] at hrow
  | some r =>
    have hr : r.id = id := by simpa using List.find?_some hf
    simp [hr]

/-- The fingerprint of a row after the update queries have run: the last one written, or
the one the row had when no query writes it. -/
theorem fingerprintIn_foldl (id : Nat) :
    ∀ (qs : List Query) (db : List Invoice), (db.find? fun r => r.id == id).isSome →
      fingerprintIn (qs.foldl applyQuery db) id
        = match persistedFingerprint id qs with
          | some v => some v
          | none => fingerprintIn db id
  | [], _, _ => rfl
  | .setNextSend a b :: qs, db, h => by
    simpa [persistedFingerprint, applyQuery] using fingerprintIn_foldl id qs db h
  | .updateInvoice i vdt err csv none vd :: qs, db, h => by
    have h1 := fingerprintIn_foldl id qs (applyQuery db (.updateInvoice i vdt err csv none vd))
      (by rw [applyQuery_find]; exact h)
    rw [fingerprintIn_applyQuery_other db id i vdt err csv none vd (Or.inr rfl)] at h1
    simpa [persistedFingerprint] using h1
  | .updateInvoice i vdt err csv (some fp) vd :: qs, db, h => by
    have h1 := fingerprintIn_foldl id qs
      (applyQuery db (.updateInvoice i vdt err csv (some fp) vd))
      (by rw [applyQuery_find]; exact h)
    simp only [List.foldl_cons, persistedFingerprint]
    rw [h1]
    cases persistedFingerprint id qs with
    | some later => rfl
    | none =>
      by_cases hi : i = id
      · subst hi
        simp [fingerprintIn_applyQuery_same db i vdt err csv fp vd h]
      · simp [hi, fingerprintIn_applyQuery_other db id i vdt err csv (some fp) vd (Or.inl hi)]

/-! ### Chain persisted by the reconciliation -/

theorem lineQuery_writes (company : Company) (isVoid : Bool) (ikeys : List (String × Nat))
    (batch : List Prepared) (r : Respuesta) (dtutc ts : String) (line : RespuestaLinea)
    (q : Query) (h : lineQuery company isVoid ikeys batch r dtutc ts line = some q) (id : Nat)
    (w : String) (hw : writesFingerprint id w q) :
    ∃ p ∈ batch, p.invoice.id = id
      ∧ w = digest (canonical (canonicalFields company p.invoice (prevFp p) ts isVoid)) := by
  unfold lineQuery at h
  cases hf : findInvoice ikeys batch line.numSerieFactura with
  | none => simp [hf] at h
  | some p =>
    have hp : p ∈ batch := by
      unfold findInvoice at hf
      split at hf
      · exact List.get?_mem hf
      · cases hf
    simp only [hf, Option.some.injEq] at h
    subst h
    simp only [writesFingerprint] at hw
    exact ⟨p, hp, hw.1, hw.2.symm⟩

/-- The fingerprint that the update queries of `send` write last on each invoice of the
batch. -/
theorem send_queries_fingerprints (host : Host) (db : List Invoice)
    (company : Company) (invoices : List Invoice) (isVoid : Bool) (r : Respuesta) (ts : String)
    (last : Invoice) (hlast : lastInvoice db company = some last)
    (hts : r.timestampPresentacion = some ts) (hne : ts ≠ "")
    (hnum : (invoices.map (numFmt company)).Nodup)
    (hid : (invoices.map fun i => i.id).Nodup)
    (hlines : ∀ inv ∈ invoices, ∃ line ∈ r.lineas,
      line.numSerieFactura = some (numFmt company inv)) :
    ∃ out, send host db company invoices isVoid (.answered 200 (.respuesta r)) = .ok out ∧
      ∀ (k : Nat) (inv : Invoice) (prev : String), invoices[k]? = some inv →
        (prevFingerprints company host.now isVoid (last.fingerprint.getD "") invoices)[k]?
          = some prev →
        persistedFingerprint inv.id out.queries
          = some (digest (canonical (canonicalFields company inv prev ts isVoid))) := by
  by_cases hemp : invoices = []
  · subst hemp
    exact ⟨_, rfl, by simp⟩
  · have hne2 : invoices.isEmpty = false := by
      cases invoices with
      | nil => exact absurd rfl hemp
      | cons a t => rfl
    obtain ⟨batch, hb, hinv, hprevs, hsome⟩ := buildRecords_some company host.now isVoid invoices
      { numFmt := numFmt company last, dt := last.dt, fingerprint := last.fingerprint }
    have htr : truthy (some ts) = true := by simp [truthy, hne]
    obtain ⟨s, hrec⟩ := reconcileLines_some company isVoid (ikeysOf company invoices) batch r
      (host.toUtc ts) ts hts hne hsome r.lineas
      (⟨[], []⟩, [Query.setNextSend company.id r.tiempoEsperaEnvio])
    refine ⟨{ result := .summary s, records := batch,
              queries := [Query.setNextSend company.id r.tiempoEsperaEnvio]
                ++ r.lineas.filterMap (lineQuery company isVoid (ikeysOf company invoices) batch r
                    (host.toUtc ts) ts) }, ?_, ?_⟩
    · simp only [send, hne2, chainStart, hlast, hb, hts, htr, if_true, Option.getD_some, hrec]
      simp
    · intro k inv prev hk hprev
      have hp : ∃ p, batch[k]? = some p ∧ p.invoice = inv ∧ prevFp p = prev := by
        have h1 : (batch.map fun p => p.invoice)[k]? = some inv := by rw [hinv]; exact hk
        have h2 : (batch.map prevFp)[k]? = some prev := by rw [hprevs]; exact hprev
        rw [List.getElem?_map] at h1 h2
        cases hbk : batch[k]? with
        | none => simp [hbk] at h1
        | some p =>
          rw [hbk] at h1 h2
          simp only [Option.map_some', Option.some.injEq] at h1 h2
          exact ⟨p, rfl, h1, h2⟩
      obtain ⟨p, hpk, hpi, hpp⟩ := hp
      have hfind : findInvoice (ikeysOf company invoices) batch (some (numFmt company inv))
          = some p := by
        have := ikeysFrom_lookup_nodup company invoices 0 [] k inv hnum hk
        simp only [findInvoice, ikeysOf, Option.getD_some, this, Nat.zero_add,
          List.get?_eq_getElem?, hpk]
      have hids : (batch.map fun p => p.invoice.id).Nodup := by
        have : (batch.map fun p => p.invoice.id) = invoices.map fun i => i.id := by
          rw [← hinv, List.map_map]; rfl
        rw [this]; exact hid
      apply persistedFingerprint_eq
      · obtain ⟨line, hline, hnumS⟩ := hlines inv (List.getElem?_mem hk)
        refine ⟨.updateInvoice p.invoice.id (host.toUtc ts) (toNumber line.codigoErrorRegistro)
          (if truthy r.csv then
            some (trim ((p.invoice.verifactu_csv.getD "") ++ "\n" ++ r.csv.getD ""))
           else none)
          (some (digest (canonical (canonicalFields company p.invoice (prevFp p) ts isVoid))))
          (!truthy line.codigoErrorRegistro && isVoid), ?_, ?_⟩
        · apply List.mem_append_right
          rw [List.mem_filterMap]
          exact ⟨line, hline, by simp only [lineQuery, hnumS, hfind]⟩
        · simp only [writesFingerprint, hpi, hpp, and_self]
      · intro q hq w hw
        rcases List.mem_append.1 hq with hq | hq
        · simp only [List.mem_singleton] at hq
          subst hq
          exact absurd hw (by simp [writesFingerprint])
        · rw [List.mem_filterMap] at hq
          obtain ⟨line, _, hlq⟩ := hq
          obtain ⟨p2, hp2, hid2, hw2⟩ := lineQuery_writes company isVoid _ batch r _ ts line q hlq
            inv.id w hw
          have hpmem : p ∈ batch := List.getElem?_mem hpk
          have heq : p2 = p :=
            List.inj_on_of_nodup_map hids hp2 hpmem (by rw [hid2, hpi])
          rw [hw2, heq, hpi, hpp]

/-- C3, as the code has it. For a company with a confirmed invoice and a batch of rows of
the table whose display numbers and row ids are pairwise distinct, when the response
carries a presentation timestamp `ts` and an outcome line for each invoice, `send` succeeds
and, once its update queries have run, the fingerprint of invoice `k` in the table is the
digest of the canonical string of invoice `k` built with `ts` as timestamp and, as previous
fingerprint, entry `k` of `prevFingerprints`: the fingerprint of the last confirmed invoice
for `k = 0`, and for `k > 0` the fingerprint of invoice `k - 1` that the client computed
with the batch timestamp (the one sent in the record), not the one persisted for invoice
`k - 1`. -/
theorem send_persists_recomputed_fingerprints (host : Host) (db : List Invoice)
    (company : Company) (invoices : List Invoice) (isVoid : Bool) (r : Respuesta) (ts : String)
    (last : Invoice) (hlast : lastInvoice db company = some last)
    (hts : r.timestampPresentacion = some ts) (hne : ts ≠ "")
    (hrows : ∀ inv ∈ invoices, (db.find? fun row => row.id == inv.id).isSome)
    (hnum : (invoices.map (numFmt company)).Nodup)
    (hid : (invoices.map fun i => i.id).Nodup)
    (hlines : ∀ inv ∈ invoices, ∃ line ∈ r.lineas,
      line.numSerieFactura = some (numFmt company inv)) :
    ∃ out, send host db company invoices isVoid (.answered 200 (.respuesta r)) = .ok out ∧
      ∀ (k : Nat) (inv : Invoice) (prev : String), invoices[k]? = some inv →
        (prevFingerprints company host.now isVoid (last.fingerprint.getD "") invoices)[k]?
          = some prev →
        fingerprintIn (out.queries.foldl applyQuery db) inv.id
          = some (digest (canonical (canonicalFields company inv prev ts isVoid))) := by
  obtain ⟨out, hout, hq⟩ := send_queries_fingerprints host db company invoices isVoid r ts last
    hlast hts hne hnum hid hlines
  refine ⟨out, hout, ?_⟩
  intro k inv prev hk hprev
  rw [fingerprintIn_foldl inv.id out.queries db (hrows inv (List.getElem?_mem hk)),
    hq k inv prev hk hprev]

/-- C3, witness: the sample batch after the confirmed invoice of `acme`. -/
theorem send_persists_recomputed_fingerprints_witness :
    (lastInvoice sampleTable acme = some confirmedInvoice
      ∧ sampleRespuesta.timestampPresentacion = some "2025-03-08T10:00:07+01:00"
      ∧ (∀ inv ∈ sampleBatch, (sampleTable.find? fun row => row.id == inv.id).isSome)
      ∧ (sampleBatch.map (numFmt acme)).Nodup
      ∧ (sampleBatch.map fun i => i.id).Nodup
      ∧ ∀ inv ∈ sampleBatch, ∃ line ∈ sampleRespuesta.lineas,
          line.numSerieFactura = some (numFmt acme inv))
    ∧ ∃ out, send sampleHost sampleTable acme sampleBatch false
          (.answered 200 (.respuesta sampleRespuesta)) = .ok out ∧
        ∀ (k : Nat) (inv : Invoice) (prev : String), sampleBatch[k]? = some inv →
          (prevFingerprints acme sampleHost.now false (confirmedInvoice.fingerprint.getD "")
            sampleBatch)[k]? = some prev →
          fingerprintIn (out.queries.foldl applyQuery sampleTable) inv.id
            = some (digest (canonical
                (canonicalFields acme inv prev "2025-03-08T10:00:07+01:00" false))) :=
  ⟨⟨by decide!, rfl, by decide!, by decide!, by decide!, by decide!⟩,
    send_persists_recomputed_fingerprints sampleHost sampleTable acme sampleBatch false
      sampleRespuesta "2025-03-08T10:00:07+01:00" confirmedInvoice (by decide!) rfl (by decide!)
      (by decide!) (by decide!) (by decide!) (by decide!)⟩

/-- C3, counterexample. After the sample batch is reconciled, the fingerprint of invoice 3
in the table is not the digest of its canonical string built with the fingerprint of
invoice 2 in the table, neither with the presentation timestamp nor with the batch
timestamp. -/
theorem persisted_fingerprints_do_not_chain :
    fingerprintIn (tableAfter sampleTable (send sampleHost sampleTable acme sampleBatch false
        (.answered 200 (.respuesta sampleRespuesta)))) 2
      = some "37D7AF1FE1D4A5D04756AC8F67B890CCA8780B7887B5FB53A04EC48A923CEBA5"
    ∧ fingerprintIn (tableAfter sampleTable (send sampleHost sampleTable acme sampleBatch false
        (.answered 200 (.respuesta sampleRespuesta)))) 3
      = some "3FC5AEA179F536D95323E0D7F0C320847ADFC4AB43013792FE2F23B50C83CB03"
    ∧ digest (canonical (canonicalFields acme (pendingInvoice 3 3 "F1")
        "37D7AF1FE1D4A5D04756AC8F67B890CCA8780B7887B5FB53A04EC48A923CEBA5"
        "2025-03-08T10:00:07+01:00" false))
      ≠ "3FC5AEA179F536D95323E0D7F0C320847ADFC4AB43013792FE2F23B50C83CB03"
    ∧ digest (canonical (canonicalFields acme (pendingInvoice 3 3 "F1")
        "37D7AF1FE1D4A5D04756AC8F67B890CCA8780B7887B5FB53A04EC48A923CEBA5"
        "2025-03-08T10:00:00+01:00" false))
      ≠ "3FC5AEA179F536D95323E0D7F0C320847ADFC4AB43013792FE2F23B50C83CB03" := by
  refine ⟨?_, ?_, ?_, ?_⟩ <;> decide!

/-- C2. Without a previous chain link `fingerprint` raises, for both record kinds: it reads
the property `fingerprint` of `null`. So does `send` for the first batch of a company, one
that has no confirmed invoice: no record is built and nothing is sent. -/
theorem fingerprint_null_raises (company : Company) (invoice : Invoice) (dtGen : String)
    (isVoid : Bool) :
    fingerprint company invoice none dtGen isVoid
        = .error (.typeError "Cannot read properties of null (reading 'fingerprint')")
      ∧ ∀ (host : Host) (rest : List Invoice) (reply : Reply),
          send host [] company (invoice :: rest) isVoid reply
            = .error (.typeError "Cannot read properties of null (reading 'fingerprint')") :=
  ⟨rfl, fun _ _ _ => rfl⟩

/-- C4. When the chain starts from no link, the loop of `send` raises at the first invoice:
no invoice gets a `_prev` link and the record builder receives nothing. -/
theorem buildRecords_null_raises (company : Company) (dtGen : String) (isVoid : Bool)
    (invoice : Invoice) (rest : List Invoice) :
    buildRecords company dtGen isVoid none (invoice :: rest)
      = .error (.typeError "Cannot read properties of null (reading 'fingerprint')") := rfl

/-! ### Request handlers -/

/-- C5. The void handler on invoice 2, which was never sent (`verifactu_dt` is null): the
loop sets status 401 and the error, and the handler goes on to call `verifactu.voided`
with the invoice. The call builds its void record, and an accepting answer of the
authority writes `voided = 1` on the row. For every selection the call is made with all
the selected invoices. -/
theorem voidedHandler_calls_voided_after_refusal :
    voidedHandler acme sampleRequest (some [pendingInvoice 2 2 "F1"])
        = .ok { status := 401, error := some "Already voided, not sent or referenced: 2",
                voidedCall := some [pendingInvoice 2 2 "F1"] }
      ∧ queriesOf (voided sampleHost sampleTable acme [pendingInvoice 2 2 "F1"]
          (.answered 200 (.respuesta sampleVoidRespuesta)))
        = some [.setNextSend 1 (some "60"),
                .updateInvoice 2 "2025-03-08T10:00:00+01:00" 0 none none true]
      ∧ ∀ (company : Company) (invoices : List Invoice),
          ∃ status error, voidedHandler company sampleRequest (some invoices)
            = .ok { status := status, error := error, voidedCall := some invoices } := by
  refine ⟨rfl, by decide!, ?_⟩
  intro company invoices
  exact ⟨_, _, rfl⟩

/-- C6. The endpoints `rect`, `rect2` and `sust` on invoice 2 when it is voided, already
referenced, or of type F1 (which `sust` does not allow): the loop sets status 401, and
`insertInvoice` runs all the same. The new invoice 3 is inserted, `invoice_ref_id` of
invoice 2 is set to 3, and the status ends as 201. -/
theorem refHandler_inserts_after_refusal :
    handledRefs (refHandler .rect acme [{ pendingInvoice 2 2 "F1" with voided := true }]
        sampleRequest (some [{ pendingInvoice 2 2 "F1" with voided := true }]))
      = some (201, some 3, [(2, some 3), (3, none)])
    ∧ handledRefs (refHandler .rect2 acme
        [pendingInvoice 1 1 "F1", { pendingInvoice 2 2 "F1" with invoice_ref_id := some 1 }]
        sampleRequest (some [{ pendingInvoice 2 2 "F1" with invoice_ref_id := some 1 }]))
      = some (201, some 3, [(1, none), (2, some 3), (3, none)])
    ∧ handledRefs (refHandler .sust acme [pendingInvoice 2 2 "F1"] sampleRequest
        (some [pendingInvoice 2 2 "F1"]))
      = some (201, some 3, [(2, some 3), (3, none)]) := by
  refine ⟨?_, ?_, ?_⟩ <;> decide!

/-! ### Numbering -/

theorem foldl_max_getD (l : List Nat) (m : Option Nat) (n : Nat) :
    ((l ++ [n]).foldl
        (fun m k =>
          match m with
          | none => some k
          | some j => some (max j k))
        m).getD 0
      = max ((l.foldl
        (fun m k =>
          match m with
          | none => some k
          | some j => some (max j k))
        m).getD 0) n := by
  rw [List.foldl_append]
  simp only [List.foldl_cons, List.foldl_nil]
  cases l.foldl
      (fun m k =>
        match m with
        | none => some k
        | some j => some (max j k))
      m with
  | none => simp
  | some j => simp

/-- Numbers of one company, year and family are consecutive: once the invoice numbered by
`nextNum` is stored, `nextNum` gives the following number. -/
theorem nextNum_append_same (db : List Invoice) (company : Company) (year : Nat)
    (type : String) (r : Invoice) (hc : r.company_id = company.id) (hy : r.dt.year = year)
    (hf : r.verifactu_type.data.head?
      = some (if type.data.head? = some 'R' then 'R' else 'F'))
    (hn : r.num = nextNum db company year type) :
    nextNum (db ++ [r]) company year type = nextNum db company year type + 1 := by
  unfold nextNum maxNumQuery at *
  simp only [List.filter_append, List.map_append] at *
  have hsel : (r.company_id == company.id && r.dt.year == year
      && r.verifactu_type.data.head?
        == some (if type.data.head? = some 'R' then 'R' else 'F')) = true := by
    simp [hc, hy, hf]
  simp only [List.filter_cons, hsel, if_true, List.filter_nil, List.map_cons, List.map_nil]
  rw [foldl_max_getD, hn]
  omega

/-- The sequences are independent: a stored invoice of another family, year or company
does not change the next number. -/
theorem nextNum_append_other (db : List Invoice) (company : Company) (year : Nat)
    (type : String) (r : Invoice)
    (h : r.company_id ≠ company.id ∨ r.dt.year ≠ year ∨ r.verifactu_type.data.head?
      ≠ some (if type.data.head? = some 'R' then 'R' else 'F')) :
    nextNum (db ++ [r]) company year type = nextNum db company year type := by
  unfold nextNum maxNumQuery
  have hsel : (r.company_id == company.id && r.dt.year == year
      && r.verifactu_type.data.head?
        == some (if type.data.head? = some 'R' then 'R' else 'F')) = false := by
    rcases h with h | h | h
    · simp [h]
    · simp [h]
    · have : (r.verifactu_type.data.head?
        == some (if type.data.head? = some 'R' then 'R' else 'F')) = false := by
        simpa using h
      simp [this]
  simp only [List.filter_append, List.filter_cons, hsel, List.filter_nil, List.append_nil]
  simp

/-- C7. The number `nextNum` returns does not depend on `first_num`: for the first invoice
of a year (no row selected) it is 1, whatever `first_num` is, because the aggregate query
always yields a row. -/
theorem nextNum_ignores_first_num (db : List Invoice) (company : Company) (year : Nat)
    (type : String) (n : Option Nat) :
    nextNum db { company with first_num := n } year type = nextNum db company year type
      ∧ nextNum [] { company with first_num := n } year type = 1
      ∧ nextNum [] { acme with first_num := some 100 } 2025 "F1" = 1 :=
  ⟨rfl, rfl, rfl⟩

/-- C8. With the formula `%n.3%/%n.3%` only the first padded placeholder is replaced: the
display number of invoice 7 is `007/%n.3%`, whereas the two plain placeholders of
`%n%/%n%` are both replaced. -/
theorem numFmt_replaces_first_padded_only :
    numFmt { acme with formula := some "%n.3%/%n.3%" } (pendingInvoice 2 7 "F1") = "007/%n.3%"
      ∧ numFmt { acme with formula := some "%n%/%n%" } (pendingInvoice 2 7 "F1") = "7/7" := by
  constructor <;> decide!

/-- C9. `cod` keeps the underscore: `\W` is the complement of the word characters, and the
underscore is one of them. -/
theorem cod_keeps_underscore :
    cod "a_b" = "A_B" ∧ cod "es-b12.345_678 x" = "ESB12345_678X" := by
  constructor <;> decide!

/-- The period of `Consulta` is a two-digit month from 01 to 12: the argument, or the
current month when the argument is `null` or 0, clamped to 1..12. -/
theorem ConsultaPeriodo_clamped (currentMonth : Nat) (month : Option Int) :
    ConsultaPeriodo currentMonth month
        = ⟨padStart 2 (decimal (max 1 (min 12
            (if numberOf month ≠ 0 then numberOf month else (currentMonth : Int)))).toNat)⟩
      ∧ ConsultaPeriodo currentMonth month ∈
          ["01", "02", "03", "04", "05", "06", "07", "08", "09", "10", "11", "12"] := by
  refine ⟨rfl, ?_⟩
  unfold ConsultaPeriodo
  generalize (if numberOf month ≠ 0 then numberOf month else (currentMonth : Int)) = m
  obtain ⟨k, hk, h1, h2⟩ : ∃ k : Nat, (max 1 (min 12 m)).toNat = k ∧ 1 ≤ k ∧ k ≤ 12 :=
    ⟨_, rfl, by omega, by omega⟩
  simp only [hk]
  interval_cases k <;> decide

/-- C10. `Consulta` never falls back to the current year: the clamped value is at least
2025, hence truthy, so an omitted year (`null` or 0) gives 2025 also when the current year
is 2026; the result is always the clamped argument. -/
theorem ConsultaEjercicio_omitted_year (currentYear : Nat) (year : Option Int) :
    ConsultaEjercicio currentYear none = 2025
      ∧ ConsultaEjercicio currentYear (some 0) = 2025
      ∧ ConsultaEjercicio 2026 none ≠ 2026
      ∧ ConsultaEjercicio currentYear year = max 2025 (min 2200 (numberOf year)) := by
  have h : ∀ y : Option Int,
      ConsultaEjercicio currentYear y = max 2025 (min 2200 (numberOf y)) := by
    intro y
    unfold ConsultaEjercicio
    have h0 : max 2025 (min 2200 (numberOf y)) ≠ 0 := by omega
    simp [h0]
  refine ⟨?_, ?_, by decide, h year⟩
  · rw [h]; decide
  · rw [h]; decide

/-! ### Reconciliation, line by line -/

theorem findInvoice_mem (ikeys : List (String × Nat)) (batch : List Prepared)
    (num : Option String) (p : Prepared) (h : findInvoice ikeys batch num = some p) :
    p ∈ batch := by
  unfold findInvoice at h
  split at h
  · exact List.get?_mem h
  · cases h

theorem reconcileLine_general (company : Company) (isVoid : Bool)
    (ikeys : List (String × Nat)) (batch : List Prepared) (r : Respuesta) (dtutc : String)
    (hprev : ∀ p ∈ batch, ∃ l, p.prev = some l) (st : Summary × List Query)
    (line : RespuestaLinea) :
    reconcileLine company isVoid ikeys batch r dtutc st line
      = .ok (⟨st.1.ok ++ (lineOk ikeys batch line).toList,
              st.1.ko ++ (lineKo ikeys batch line).toList⟩,
             st.2 ++ (lineUpdate company isVoid ikeys batch r dtutc line).toList) := by
  unfold reconcileLine lineOk lineKo lineUpdate updateOf
  cases hf : findInvoice ikeys batch line.numSerieFactura with
  | none => simp
  | some p =>
    obtain ⟨l, hl⟩ := hprev p (findInvoice_mem ikeys batch _ p hf)
    by_cases hts : truthy r.timestampPresentacion = true
    · by_cases hc : truthy line.codigoErrorRegistro = true <;>
        simp [hts, hc, hl, fingerprint_some, prevFp]
    · by_cases hc : truthy line.codigoErrorRegistro = true <;>
        simp [hts, hc]

theorem reconcileLines_general (company : Company) (isVoid : Bool)
    (ikeys : List (String × Nat)) (batch : List Prepared) (r : Respuesta) (dtutc : String)
    (hprev : ∀ p ∈ batch, ∃ l, p.prev = some l) :
    ∀ (lines : List RespuestaLinea) (st : Summary × List Query),
      reconcileLines company isVoid ikeys batch r dtutc st lines
        = .ok (⟨st.1.ok ++ lines.filterMap (lineOk ikeys batch),
                st.1.ko ++ lines.filterMap (lineKo ikeys batch)⟩,
               st.2 ++ lines.filterMap (lineUpdate company isVoid ikeys batch r dtutc))
  | [], st => by simp [reconcileLines]
  | line :: rest, st => by
    rw [reconcileLines, reconcileLine_general company isVoid ikeys batch r dtutc hprev st line]
    simp only []
    rw [reconcileLines_general company isVoid ikeys batch r dtutc hprev rest]
    cases h1 : lineOk ikeys batch line <;> cases h2 : lineKo ikeys batch line <;>
      cases h3 : lineUpdate company isVoid ikeys batch r dtutc line <;>
      simp [List.filterMap_cons, h1, h2, h3]

/-- For a company with a confirmed invoice, `send` on a non-empty batch and a parsed
response: the batch is prepared with a link for every invoice, and the summary and the
update queries are those of the outcome lines, in order. -/
theorem send_general (host : Host) (db : List Invoice) (company : Company)
    (invoices : List Invoice) (isVoid : Bool) (r : Respuesta) (last : Invoice)
    (hlast : lastInvoice db company = some last) (hne : invoices ≠ []) :
    ∃ batch, buildRecords company host.now isVoid (chainStart db company) invoices = .ok batch
      ∧ batch.map (fun p => p.invoice) = invoices
      ∧ (∀ p ∈ batch, ∃ l, p.prev = some l)
      ∧ send host db company invoices isVoid (.answered 200 (.respuesta r))
        = .ok { result := .summary
                  ⟨r.lineas.filterMap (lineOk (ikeysOf company invoices) batch),
                   r.lineas.filterMap (lineKo (ikeysOf company invoices) batch)⟩,
                records := batch,
                queries := Query.setNextSend company.id r.tiempoEsperaEnvio ::
                  r.lineas.filterMap (lineUpdate company isVoid (ikeysOf company invoices)
                    batch r (host.toUtc (if truthy r.timestampPresentacion then
                      r.timestampPresentacion.getD "" else host.now))) } := by
  have hne2 : invoices.isEmpty = false := by
    cases invoices with
    | nil => exact absurd rfl hne
    | cons a t => rfl
  obtain ⟨batch, hb, hinv, _, hsome⟩ := buildRecords_some company host.now isVoid invoices
    { numFmt := numFmt company last, dt := last.dt, fingerprint := last.fingerprint }
  refine ⟨batch, by simp only [chainStart, hlast, hb], hinv, hsome, ?_⟩
  simp only [send, hne2, chainStart, hlast, hb]
  simp [reconcileLines_general company isVoid (ikeysOf company invoices) batch r _ hsome]

theorem fingerprintIn_foldl_unwritten (id : Nat) :
    ∀ (qs : List Query) (db : List Invoice),
      (∀ i vdt err csv fp vd, Query.updateInvoice i vdt err csv fp vd ∈ qs → fp = none) →
      fingerprintIn (qs.foldl applyQuery db) id = fingerprintIn db id
  | [], _, _ => rfl
  | .setNextSend a b :: qs, db, h => by
    simpa [applyQuery] using fingerprintIn_foldl_unwritten id qs db
      (fun i vdt err csv fp vd hq => h i vdt err csv fp vd (List.mem_cons_of_mem _ hq))
  | .updateInvoice i vdt err csv fp vd :: qs, db, h => by
    have hfp : fp = none := h i vdt err csv fp vd (List.mem_cons_self _ _)
    rw [List.foldl_cons, fingerprintIn_foldl_unwritten id qs _
      (fun i vdt err csv fp vd hq => h i vdt err csv fp vd (List.mem_cons_of_mem _ hq))]
    exact fingerprintIn_applyQuery_other db id i vdt err csv fp vd (Or.inr hfp)

/-- C11. For a company with a confirmed invoice, a parsed response `r` and an outcome line
of it: `send` succeeds, and when the line is matched to the prepared invoice `p` of the
batch, the fingerprint of `p` with its link `_prev` and the presentation timestamp is
defined, `h`, and the update query of the row carries the confirmation timestamp (from the
presentation timestamp when the response has one, else from the batch timestamp), the
error code, and the fingerprint `h` exactly when the response has a presentation
timestamp, whatever the error code. No update query of the call sets the fingerprint
unless the response has a presentation timestamp; without one every fingerprint of the
table stays as it was. -/
theorem send_writes_fingerprint_iff_timestamp (host : Host) (db : List Invoice)
    (company : Company) (invoices : List Invoice) (isVoid : Bool) (r : Respuesta)
    (last : Invoice) (line : RespuestaLinea)
    (hlast : lastInvoice db company = some last) (hline : line ∈ r.lineas) :
    ∃ out, send host db company invoices isVoid (.answered 200 (.respuesta r)) = .ok out ∧
      (∀ p, findInvoice (ikeysOf company invoices) out.records line.numSerieFactura = some p →
        ∃ h, fingerprint company p.invoice p.prev (r.timestampPresentacion.getD "") isVoid
            = .ok h ∧
          Query.updateInvoice p.invoice.id
            (host.toUtc (if truthy r.timestampPresentacion then
              r.timestampPresentacion.getD "" else host.now))
            (toNumber line.codigoErrorRegistro)
            (if truthy r.csv then
              some (trim ((p.invoice.verifactu_csv.getD "") ++ "\n" ++ r.csv.getD ""))
             else none)
            (if truthy r.timestampPresentacion then some h else none)
            (!truthy line.codigoErrorRegistro && isVoid) ∈ out.queries) ∧
      (∀ id vdt err csv fp vd, Query.updateInvoice id vdt err csv fp vd ∈ out.queries →
        fp.isSome = truthy r.timestampPresentacion) ∧
      (truthy r.timestampPresentacion = false →
        ∀ id, fingerprintIn (out.queries.foldl applyQuery db) id = fingerprintIn db id) := by
  by_cases hemp : invoices = []
  · subst hemp
    refine ⟨_, rfl, ?_, ?_, ?_⟩
    · intro p hp
      exact absurd (findInvoice_mem _ _ _ p hp) (by simp)
    · intro id vdt err csv fp vd hq
      simp at hq
    · intro _ id
      rfl
  · obtain ⟨batch, _, _, hsome, hsend⟩ := send_general host db company invoices isVoid r last
      hlast hemp
    have hwritten : ∀ id vdt err csv fp vd,
        Query.updateInvoice id vdt err csv fp vd ∈
          Query.setNextSend company.id r.tiempoEsperaEnvio ::
            r.lineas.filterMap (lineUpdate company isVoid (ikeysOf company invoices) batch r
              (host.toUtc (if truthy r.timestampPresentacion then
                r.timestampPresentacion.getD "" else host.now))) →
        fp.isSome = truthy r.timestampPresentacion := by
      intro id vdt err csv fp vd hq
      rcases List.mem_cons.1 hq with hq | hq
      · cases hq
      · rw [List.mem_filterMap] at hq
        obtain ⟨line2, _, hl2⟩ := hq
        unfold lineUpdate at hl2
        split at hl2
        · cases hl2
        · simp only [updateOf, Option.some.injEq, Query.updateInvoice.injEq] at hl2
          rw [← hl2.2.2.2.2.1]
          by_cases hts : truthy r.timestampPresentacion = true <;> simp [hts]
    refine ⟨_, hsend, ?_, hwritten, ?_⟩
    · intro p hp
      obtain ⟨l, hl⟩ := hsome p (findInvoice_mem _ _ _ p hp)
      refine ⟨_, by rw [hl]; exact fingerprint_some company p.invoice l _ isVoid, ?_⟩
      apply List.mem_cons_of_mem
      rw [List.mem_filterMap]
      refine ⟨line, hline, ?_⟩
      simp only [lineUpdate, hp, updateOf, prevFp, hl]
    · intro hts id
      apply fingerprintIn_foldl_unwritten
      intro i vdt err csv fp vd hq
      have := hwritten i vdt err csv fp vd hq
      rw [hts] at this
      cases fp with
      | none => rfl
      | some v => simp at this

/-- C11, witness: the sample batch, a response that rejects invoice 2, and its line. -/
theorem send_writes_fingerprint_iff_timestamp_witness :
    (lastInvoice sampleTable acme = some confirmedInvoice
      ∧ (⟨some "2", some "Alta", some "Incorrecto", some "4102", some "Error"⟩ : RespuestaLinea)
          ∈ sampleRejectRespuesta.lineas)
    ∧ ∃ out, send sampleHost sampleTable acme sampleBatch false
          (.answered 200 (.respuesta sampleRejectRespuesta)) = .ok out ∧
        (∀ p, findInvoice (ikeysOf acme sampleBatch) out.records (some "2") = some p →
          ∃ h, fingerprint acme p.invoice p.prev
              (sampleRejectRespuesta.timestampPresentacion.getD "") false = .ok h ∧
            Query.updateInvoice p.invoice.id
              (sampleHost.toUtc (if truthy sampleRejectRespuesta.timestampPresentacion then
                sampleRejectRespuesta.timestampPresentacion.getD "" else sampleHost.now))
              (toNumber (some "4102"))
              (if truthy sampleRejectRespuesta.csv then
                some (trim ((p.invoice.verifactu_csv.getD "") ++ "\n"
                  ++ sampleRejectRespuesta.csv.getD ""))
               else none)
              (if truthy sampleRejectRespuesta.timestampPresentacion then some h else none)
              (!truthy (some "4102") && false) ∈ out.queries) ∧
        (∀ id vdt err csv fp vd, Query.updateInvoice id vdt err csv fp vd ∈ out.queries →
          fp.isSome = truthy sampleRejectRespuesta.timestampPresentacion) ∧
        (truthy sampleRejectRespuesta.timestampPresentacion = false →
          ∀ id, fingerprintIn (out.queries.foldl applyQuery sampleTable) id
            = fingerprintIn sampleTable id) :=
  ⟨⟨by decide!, by decide!⟩,
    send_writes_fingerprint_iff_timestamp sampleHost sampleTable acme sampleBatch false
      sampleRejectRespuesta confirmedInvoice
      ⟨some "2", some "Alta", some "Incorrecto", some "4102", some "Error"⟩
      (by decide!) (by decide!)⟩

theorem findInvoice_unmatched (company : Company) (invoices : List Invoice)
    (batch : List Prepared) (num : Option String)
    (h : num.getD "undefined" ∉ invoices.map (numFmt company)) :
    findInvoice (ikeysOf company invoices) batch num = none := by
  unfold findInvoice ikeysOf
  rw [ikeysFrom_lookup_not_mem company invoices 0 [] _ h]
  rfl

/-- C12. For a company with a confirmed invoice and a non-empty batch, take a parsed
response with an outcome line whose display number is the display number of no invoice of
the batch (a line with no display number is looked up under the name `undefined`). `send`
succeeds on it as it does on the response without that line, with the same update queries
and the same list `ok`; its list `ko` is the one of the response without the line with the
one entry `(num, Not exists)` put in at the place of the line. The lines before and after
are processed as without it. -/
theorem send_skips_unmatched_line (host : Host) (db : List Invoice) (company : Company)
    (invoices : List Invoice) (isVoid : Bool) (r : Respuesta) (last : Invoice)
    (before after : List RespuestaLinea) (line : RespuestaLinea)
    (hlast : lastInvoice db company = some last) (hne : invoices ≠ [])
    (hun : line.numSerieFactura.getD "undefined" ∉ invoices.map (numFmt company)) :
    ∃ out without okList koBefore koAfter,
      send host db company invoices isVoid
          (.answered 200 (.respuesta { r with lineas := before ++ line :: after })) = .ok out
        ∧ send host db company invoices isVoid
          (.answered 200 (.respuesta { r with lineas := before ++ after })) = .ok without
        ∧ out.queries = without.queries
        ∧ without.result = .summary ⟨okList, koBefore ++ koAfter⟩
        ∧ out.result = .summary ⟨okList,
            koBefore ++ ⟨none, line.numSerieFactura, some "Not exists", none⟩ :: koAfter⟩ := by
  obtain ⟨batch, hb, _, _, hsend⟩ := send_general host db company invoices isVoid
    { r with lineas := before ++ line :: after } last hlast hne
  obtain ⟨batch2, hb2, _, _, hsend2⟩ := send_general host db company invoices isVoid
    { r with lineas := before ++ after } last hlast hne
  have hbatch : batch2 = batch := Except.ok.inj (hb2.symm.trans hb)
  subst hbatch
  have hf := findInvoice_unmatched company invoices batch2 line.numSerieFactura hun
  have hsame : ∀ dtutc,
      lineUpdate company isVoid (ikeysOf company invoices) batch2
        { r with lineas := before ++ line :: after } dtutc
      = lineUpdate company isVoid (ikeysOf company invoices) batch2
        { r with lineas := before ++ after } dtutc := by
    intro dtutc
    funext l
    simp only [lineUpdate, updateOf]
  have hu : ∀ dtutc, lineUpdate company isVoid (ikeysOf company invoices) batch2
      { r with lineas := before ++ after } dtutc line = none := by
    intro dtutc
    simp only [lineUpdate, hf]
  have hok : lineOk (ikeysOf company invoices) batch2 line = none := by
    simp only [lineOk, hf]
  have hko : lineKo (ikeysOf company invoices) batch2 line
      = some ⟨none, line.numSerieFactura, some "Not exists", none⟩ := by
    simp only [lineKo, hf]
  refine ⟨_, _, (before ++ after).filterMap (lineOk (ikeysOf company invoices) batch2),
    before.filterMap (lineKo (ikeysOf company invoices) batch2),
    after.filterMap (lineKo (ikeysOf company invoices) batch2), hsend, hsend2, ?_, ?_, ?_⟩
  · simp only [hsame, List.filterMap_append, List.filterMap_cons, hu]
  · simp only [List.filterMap_append]
  · simp only [List.filterMap_append, List.filterMap_cons, hok, hko]

/-- C12, witness: the sample batch and a line for the display number 99 between the two
lines of the sample response. -/
theorem send_skips_unmatched_line_witness :
    (lastInvoice sampleTable acme = some confirmedInvoice ∧ sampleBatch ≠ []
      ∧ sampleUnknownLine.numSerieFactura.getD "undefined" ∉ sampleBatch.map (numFmt acme))
    ∧ ∃ out without okList koBefore koAfter,
      send sampleHost sampleTable acme sampleBatch false
          (.answered 200 (.respuesta { sampleRespuesta with
            lineas := [⟨some "2", some "Alta", some "Correcto", none, none⟩]
              ++ sampleUnknownLine :: [⟨some "3", some "Alta", some "Correcto", none, none⟩] }))
          = .ok out
        ∧ send sampleHost sampleTable acme sampleBatch false
          (.answered 200 (.respuesta { sampleRespuesta with
            lineas := [⟨some "2", some "Alta", some "Correcto", none, none⟩]
              ++ [⟨some "3", some "Alta", some "Correcto", none, none⟩] })) = .ok without
        ∧ out.queries = without.queries
        ∧ without.result = .summary ⟨okList, koBefore ++ koAfter⟩
        ∧ out.result = .summary ⟨okList,
            koBefore ++ ⟨none, sampleUnknownLine.numSerieFactura, some "Not exists", none⟩
              :: koAfter⟩ :=
  ⟨⟨by decide!, by decide, by decide!⟩,
    send_skips_unmatched_line sampleHost sampleTable acme sampleBatch false sampleRespuesta
      confirmedInvoice [⟨some "2", some "Alta", some "Correcto", none, none⟩]
      [⟨some "3", some "Alta", some "Correcto", none, none⟩] sampleUnknownLine
      (by decide!) (by decide) (by decide!)⟩

/-! ### Resubmission of rejected invoices -/

theorem mem_pendingInvoices (db : List Invoice) (company : Company) (r : Invoice)
    (h : r ∈ pendingInvoices db company) : r ∈ db ∧ r.verifactu_dt = none := by
  unfold pendingInvoices orderByDt at h
  have h1 := List.mem_of_mem_take h
  rw [List.mem_insertionSort] at h1
  rw [List.mem_filter] at h1
  refine ⟨h1.1, ?_⟩
  have := h1.2
  simp only [Bool.and_eq_true, Option.isNone_iff_eq_none] at this
  exact this.2

/-- C13. An invoice that an update query of `send` has written is not in the batch of a
later `pending` sweep: the update sets `verifactu_dt`, and the sweep selects the rows whose
`verifactu_dt` is null. On the sample, the response rejects invoice 2 with the code 4102:
the row has the code and a date, the next batch of the company is empty and the sweep sends
nothing, although `next_send` has elapsed. -/
theorem pending_never_selects_rejected (db : List Invoice) (company : Company) (id : Nat)
    (vdt : String) (err : Nat) (csv fp : Option String) (vd : Bool) :
    (∀ r ∈ pendingInvoices (applyQuery db (.updateInvoice id vdt err csv fp vd)) company,
        r.id ≠ id)
      ∧ chainColumns (tableAfter sampleTable (send sampleHost sampleTable acme sampleBatch false
          (.answered 200 (.respuesta sampleRejectRespuesta))))
        = [(1, some "2025-03-07 09:00:00", some 0),
           (2, some "2025-03-08T10:00:07+01:00", some 4102),
           (3, some "2025-03-08T10:00:07+01:00", some 0)]
      ∧ pendingInvoices (tableAfter sampleTable (send sampleHost sampleTable acme sampleBatch
          false (.answered 200 (.respuesta sampleRejectRespuesta)))) acme = []
      ∧ sweepOf (pending sampleHost (fun _ => .answered 200 (.respuesta sampleRespuesta))
          (tableAfter sampleTable (send sampleHost sampleTable acme sampleBatch false
            (.answered 200 (.respuesta sampleRejectRespuesta)))) [(acme, some (-5))])
        = some [(1, .message "No invoices to send", 0)] := by
  refine ⟨?_, by decide!, by decide!, by decide!⟩
  intro r hr
  obtain ⟨hmem, hdt⟩ := mem_pendingInvoices _ _ r hr
  simp only [applyQuery, List.mem_map] at hmem
  obtain ⟨r0, _, hr0⟩ := hmem
  by_cases hid : r0.id = id
  · rw [if_pos hid] at hr0
    rw [← hr0] at hdt
    simp at hdt
  · rw [if_neg hid] at hr0
    rw [← hr0]
    exact hid

/-! ### Transport failure -/

/-- C14. When the connection fails, `send` on a non-empty batch does not resolve to a
value: the listener of `'error'` raises a `ReferenceError` (on the sample batch, `status is
not defined`). When the authority answers with a status other than 200, `send` resolves to
the failure value and issues no query. -/
theorem send_connection_error_raises (host : Host) (db : List Invoice) (company : Company)
    (invoice : Invoice) (rest : List Invoice) (isVoid : Bool) (msg : String) :
    (∀ out, send host db company (invoice :: rest) isVoid (sendXML (.connectionError msg))
        ≠ .ok out)
      ∧ queriesOf (send sampleHost sampleTable acme sampleBatch false
          (sendXML (.connectionError msg))) = none
      ∧ ∀ (status : Nat) (body : Parsed), status ≠ 200 →
          queriesOf (send sampleHost sampleTable acme sampleBatch false
            (sendXML (.response status body))) = some [] := by
  refine ⟨?_, ?_, ?_⟩
  · intro out h
    simp only [send, sendXML, List.isEmpty_cons] at h
    cases hb : buildRecords company host.now isVoid (chainStart db company) (invoice :: rest)
      with
    | error e => simp [hb] at h
    | ok b => simp [hb] at h
  · obtain ⟨batch, hb, _⟩ := buildRecords_some acme sampleHost.now false sampleBatch
      { numFmt := numFmt acme confirmedInvoice, dt := confirmedInvoice.dt,
        fingerprint := confirmedInvoice.fingerprint }
    have hlast : lastInvoice sampleTable acme = some confirmedInvoice := by decide!
    have hne : sampleBatch.isEmpty = false := rfl
    simp only [send, sendXML, hne, chainStart, hlast, hb, queriesOf]
    rfl
  · intro status body hs
    obtain ⟨batch, hb, _⟩ := buildRecords_some acme sampleHost.now false sampleBatch
      { numFmt := numFmt acme confirmedInvoice, dt := confirmedInvoice.dt,
        fingerprint := confirmedInvoice.fingerprint }
    have hlast : lastInvoice sampleTable acme = some confirmedInvoice := by decide!
    have hne : sampleBatch.isEmpty = false := rfl
    simp only [send, sendXML, hne, chainStart, hlast, hb, queriesOf]
    simp [hs]

/-! ### Error code of an outcome line -/

/-- C15. A line whose error-code element is present with the text `0`, in a void batch:
the text is truthy, so the invoice goes to the list `ko` and the update does not set
`voided`, while it writes the error code 0. With no error-code element the invoice goes to
the list `ok` and `voided` is set. -/
theorem zero_code_text_counts_as_error :
    summaryOf (voided sampleHost sampleTable acme [confirmedInvoice]
        (.answered 200 (.respuesta sampleZeroCodeRespuesta)))
      = some ⟨[], [⟨some 1, some "1", some "0", none⟩]⟩
    ∧ queriesOf (voided sampleHost sampleTable acme [confirmedInvoice]
        (.answered 200 (.respuesta sampleZeroCodeRespuesta)))
      = some [.setNextSend 1 (some "60"),
              .updateInvoice 1 "2025-03-08T10:00:00+01:00" 0 none none false]
    ∧ summaryOf (voided sampleHost sampleTable acme [confirmedInvoice]
        (.answered 200 (.respuesta sampleNoCodeRespuesta)))
      = some ⟨[⟨some 1, some "1", none, none⟩], []⟩
    ∧ queriesOf (voided sampleHost sampleTable acme [confirmedInvoice]
        (.answered 200 (.respuesta sampleNoCodeRespuesta)))
      = some [.setNextSend 1 (some "60"),
              .updateInvoice 1 "2025-03-08T10:00:00+01:00" 0 none none true] := by
  refine ⟨?_, ?_, ?_, ?_⟩ <;> decide!

/-! ### Amounts stored by `insertInvoice` -/

theorem invoiceTotals_foldl (lines : List BodyLine) :
    ∀ acc : Int × Int × Int, acc.2.2 = acc.1 + acc.2.1 →
      (lines.foldl
        (fun acc line =>
          if hasVat line then
            (acc.1 + lineVat (numdec (linePrice line)) line, acc.2.1 + numdec (linePrice line),
              acc.2.2 + (numdec (linePrice line) + lineVat (numdec (linePrice line)) line))
          else (acc.1, acc.2.1 + numdec (linePrice line), acc.2.2 + numdec (linePrice line)))
        acc).2.2
      = (lines.foldl
        (fun acc line =>
          if hasVat line then
            (acc.1 + lineVat (numdec (linePrice line)) line, acc.2.1 + numdec (linePrice line),
              acc.2.2 + (numdec (linePrice line) + lineVat (numdec (linePrice line)) line))
          else (acc.1, acc.2.1 + numdec (linePrice line), acc.2.2 + numdec (linePrice line)))
        acc).1
        + (lines.foldl
        (fun acc line =>
          if hasVat line then
            (acc.1 + lineVat (numdec (linePrice line)) line, acc.2.1 + numdec (linePrice line),
              acc.2.2 + (numdec (linePrice line) + lineVat (numdec (linePrice line)) line))
          else (acc.1, acc.2.1 + numdec (linePrice line), acc.2.2 + numdec (linePrice line)))
        acc).2.1 := by
  induction lines with
  | nil => intro acc h; exact h
  | cons line rest ih =>
    intro acc h
    simp only [List.foldl_cons]
    apply ih
    by_cases hv : hasVat line = true
    · simp only [hv, if_true]; omega
    · simp only [hv]; simp only [Bool.false_eq_true, if_false]; omega

/-- The total of the invoice is its tax amount plus its tax base, and a stored line with a
truthy rate has the total `bi + tvat`. -/
theorem invoiceTotals_total (lines : List BodyLine) (invoice_id num : Nat) (line : BodyLine) :
    (invoiceTotals lines).2.2 = (invoiceTotals lines).1 + (invoiceTotals lines).2.1
      ∧ (hasVat line = true →
          (storedLine invoice_id num line).total
            = (storedLine invoice_id num line).bi + (storedLine invoice_id num line).tvat) := by
  constructor
  · exact invoiceTotals_foldl lines (0, 0, 0) rfl
  · intro h
    simp [storedLine, h]

/-- C18. For a line whose rate is 0 or missing `insertInvoice` stores the total 0, not the
base: of the three sample lines (10.00 at the rate 0, 2 x 5.00 with no rate, 10.00 at 21 %)
the first two are stored as `(bi, tvat, total) = (10.00, 0, 0)` and the third as
`(10.00, 2.10, 12.10)`, while the invoice is stored with `tvat = 2.10`, `bi = 30.00` and
`total = 32.10`. For every line with a rate of 0 or none the stored total is 0. -/
theorem storedLine_total_zero_without_vat (invoice_id num : Nat) (descr : Option String)
    (units price : Option ℚ) :
    (storedLine invoice_id num ⟨descr, units, price, none⟩).total = 0
      ∧ (storedLine invoice_id num ⟨descr, units, price, some 0⟩).total = 0
      ∧ (storedLine 3 1 ⟨some "Exempt", some 1, some 10, some 0⟩).bi = 1000
      ∧ lineAmounts (insertInvoice acme sampleTable sampleLinesRequest 200 none "F2" none
          none).invoice_lines = [(1000, 0, 0), (1000, 0, 0), (1000, 210, 1210)]
      ∧ invoiceAmounts (insertInvoice acme sampleTable sampleLinesRequest 200 none "F2" none
          none).invoices = [(1, 2100, 10000, 12100), (2, 2100, 10000, 12100),
            (3, 2100, 10000, 12100), (4, 210, 3000, 3210)] := by
  refine ⟨?_, ?_, ?_, ?_, ?_⟩
  · simp [storedLine, hasVat]
  · simp [storedLine, hasVat]
  · decide!
  · decide!
  · decide!

/-! ### Outcome index: the last invoice of a display number -/

theorem lastPosition_none (s : String) :
    ∀ l : List String, lastPosition s l = none → s ∉ l
  | [], _ => by simp
  | x :: xs, h => by
    simp only [lastPosition] at h
    cases hrec : lastPosition s xs with
    | some j => simp [hrec] at h
    | none =>
      rw [hrec] at h
      by_cases hx : x = s
      · simp [hx] at h
      · simp only [List.mem_cons, not_or]
        exact ⟨fun e => hx e.symm, lastPosition_none s xs hrec⟩

theorem lastPosition_some (s : String) :
    ∀ (l : List String) (k : Nat), lastPosition s l = some k →
      l[k]? = some s ∧ ∀ m, k < m → l[m]? ≠ some s
  | [], _, h => by simp [lastPosition] at h
  | x :: xs, k, h => by
    simp only [lastPosition] at h
    cases hrec : lastPosition s xs with
    | some j =>
      rw [hrec] at h
      simp only [Option.some.injEq] at h
      subst h
      obtain ⟨h1, h2⟩ := lastPosition_some s xs j hrec
      refine ⟨by simpa using h1, ?_⟩
      intro m hm
      cases m with
      | zero => omega
      | succ m => simpa using h2 m (by omega)
    | none =>
      rw [hrec] at h
      by_cases hx : x = s
      · simp only [hx, if_true, Option.some.injEq] at h
        subst h
        refine ⟨by simp [hx], ?_⟩
        intro m hm
        cases m with
        | zero => omega
        | succ m =>
          intro hc
          have hmem : s ∈ xs := List.getElem?_mem (by simpa using hc)
          exact lastPosition_none s xs hrec hmem
      · simp [hx] at h

theorem ikeysFrom_lookup_last (company : Company) :
    ∀ (invoices : List Invoice) (key : Nat) (ikeys : List (String × Nat)) (s : String),
      (ikeysFrom company key invoices ikeys).lookup s
        = match lastPosition s (invoices.map (numFmt company)) with
          | some j => some (key + j)
          | none => ikeys.lookup s
  | [], _, _, _ => rfl
  | invoice :: rest, key, ikeys, s => by
    rw [ikeysFrom, ikeysFrom_lookup_last company rest (key + 1) _ s]
    simp only [List.map_cons, lastPosition]
    cases lastPosition s (rest.map (numFmt company)) with
    | some j => simp only [Option.some.injEq]; omega
    | none =>
      simp only [List.lookup_cons]
      by_cases hx : numFmt company invoice = s
      · simp [hx]
      · have : (s == numFmt company invoice) = false := by
          simpa using fun e : s = numFmt company invoice => hx e.symm
        simp [hx, this]

theorem getElem?_inj_of_nodup_map {α β : Type} (f : α → β) :
    ∀ (l : List α), (l.map f).Nodup → ∀ (i j : Nat) (x y : α),
      l[i]? = some x → l[j]? = some y → f x = f y → i = j
  | [], _, _, _, _, _, h, _, _ => by simp at h
  | a :: t, hn, i, j, x, y, hi, hj, hf => by
    simp only [List.map_cons, List.nodup_cons] at hn
    cases i with
    | zero =>
      cases j with
      | zero => rfl
      | succ j =>
        simp only [List.getElem?_cons_zero, Option.some.injEq] at hi
        simp only [List.getElem?_cons_succ] at hj
        subst hi
        exact absurd (hf ▸ List.mem_map_of_mem f (List.getElem?_mem hj)) hn.1
    | succ i =>
      cases j with
      | zero =>
        simp only [List.getElem?_cons_zero, Option.some.injEq] at hj
        simp only [List.getElem?_cons_succ] at hi
        subst hj
        exact absurd (hf ▸ List.mem_map_of_mem f (List.getElem?_mem hi)) hn.1
      | succ j =>
        simp only [List.getElem?_cons_succ] at hi hj
        rw [getElem?_inj_of_nodup_map f t hn.2 i j x y hi hj hf]

/-- C17. The outcome index gives, for every display number, the position of the last
invoice of the batch that has it (`lastPosition`: the number stands at that position and
at no later one). So, for a company with a confirmed invoice and a batch of rows with
distinct ids in which the invoices `a` and `b`, `a` before `b`, have one display number:
`send` succeeds, no update query of the call is on the row of `a`, and every outcome line
with that display number gives an update query on the row of the last invoice that has
the number, which stands after `a`. -/
theorem outcome_index_keeps_last (host : Host) (db : List Invoice) (company : Company)
    (invoices : List Invoice) (isVoid : Bool) (r : Respuesta) (last : Invoice) (i j : Nat)
    (a b : Invoice) (hlast : lastInvoice db company = some last)
    (hid : (invoices.map fun x => x.id).Nodup)
    (ha : invoices[i]? = some a) (hb : invoices[j]? = some b) (hij : i < j)
    (hsame : numFmt company a = numFmt company b) :
    (∀ s, (ikeysOf company invoices).lookup s
        = lastPosition s (invoices.map (numFmt company)))
      ∧ (∀ s k, lastPosition s (invoices.map (numFmt company)) = some k →
          (invoices.map (numFmt company))[k]? = some s
            ∧ ∀ m, k < m → (invoices.map (numFmt company))[m]? ≠ some s)
      ∧ ∃ out, send host db company invoices isVoid (.answered 200 (.respuesta r)) = .ok out
        ∧ (∀ vdt err csv fp vd, Query.updateInvoice a.id vdt err csv fp vd ∉ out.queries)
        ∧ ∀ line ∈ r.lineas, line.numSerieFactura = some (numFmt company a) →
            ∃ k c, i < k ∧ invoices[k]? = some c ∧ numFmt company c = numFmt company a
              ∧ (∀ m d, k < m → invoices[m]? = some d →
                  numFmt company d ≠ numFmt company a)
              ∧ ∃ vdt err csv fp vd,
                  Query.updateInvoice c.id vdt err csv fp vd ∈ out.queries := by
  have hlook : ∀ s, (ikeysOf company invoices).lookup s
      = lastPosition s (invoices.map (numFmt company)) := by
    intro s
    unfold ikeysOf
    rw [ikeysFrom_lookup_last company invoices 0 [] s]
    cases lastPosition s (invoices.map (numFmt company)) with
    | some k => simp
    | none => rfl
  have hne : invoices ≠ [] := by
    intro h
    rw [h] at ha
    simp at ha
  obtain ⟨batch, _, hinv, _, hsend⟩ := send_general host db company invoices isVoid r last
    hlast hne
  have hbatch : ∀ (k : Nat) (p : Prepared), batch[k]? = some p →
      invoices[k]? = some p.invoice := by
    intro k p hk
    rw [← hinv, List.getElem?_map, hk]
    rfl
  have hnumA : (invoices.map (numFmt company))[i]? = some (numFmt company a) := by
    rw [List.getElem?_map, ha]; rfl
  have hnumB : (invoices.map (numFmt company))[j]? = some (numFmt company a) := by
    rw [List.getElem?_map, hb, hsame]; rfl
  refine ⟨hlook, fun s k h => lastPosition_some s _ k h, _, hsend, ?_, ?_⟩
  · intro vdt err csv fp vd hq
    rcases List.mem_cons.1 hq with hq | hq
    · cases hq
    · rw [List.mem_filterMap] at hq
      obtain ⟨line, _, hl⟩ := hq
      unfold lineUpdate at hl
      cases hf : findInvoice (ikeysOf company invoices) batch line.numSerieFactura with
      | none => simp [hf] at hl
      | some p =>
        simp only [hf, updateOf, Option.some.injEq, Query.updateInvoice.injEq] at hl
        have hpid : p.invoice.id = a.id := hl.1
        unfold findInvoice at hf
        rw [hlook] at hf
        cases hk : lastPosition (line.numSerieFactura.getD "undefined")
            (invoices.map (numFmt company)) with
        | none => simp [hk] at hf
        | some k =>
          simp only [hk, List.get?_eq_getElem?] at hf
          have hki : k = i :=
            getElem?_inj_of_nodup_map (fun x : Invoice => x.id) invoices hid k i p.invoice a
              (hbatch k p hf) ha hpid
          obtain ⟨h1, h2⟩ := lastPosition_some _ _ k hk
          subst hki
          rw [hnumA] at h1
          simp only [Option.some.injEq] at h1
          exact h2 j hij (by rw [hnumB, h1])
  · intro line hline hnum
    cases hk : lastPosition (numFmt company a) (invoices.map (numFmt company)) with
    | none =>
      exact absurd (List.getElem?_mem hnumA) (lastPosition_none _ _ hk)
    | some k =>
      obtain ⟨h1, h2⟩ := lastPosition_some _ _ k hk
      have hjk : j ≤ k := by
        by_contra hlt
        exact h2 j (by omega) hnumB
      rw [List.getElem?_map] at h1
      cases hc : invoices[k]? with
      | none => simp [hc] at h1
      | some c =>
        rw [hc] at h1
        simp only [Option.map_some', Option.some.injEq] at h1
        have hp : ∃ p, batch[k]? = some p ∧ p.invoice = c := by
          have : (batch.map fun (p : Prepared) => p.invoice)[k]? = some c := by
            rw [hinv]; exact hc
          rw [List.getElem?_map] at this
          cases hbk : batch[k]? with
          | none => simp [hbk] at this
          | some p =>
            rw [hbk] at this
            simp only [Option.map_some', Option.some.injEq] at this
            exact ⟨p, rfl, this⟩
        obtain ⟨p, hpk, hpc⟩ := hp
        have hfind : findInvoice (ikeysOf company invoices) batch line.numSerieFactura
            = some p := by
          simp only [findInvoice, hnum, Option.getD_some, hlook, hk, List.get?_eq_getElem?,
            hpk]
        refine ⟨k, c, by omega, hc, h1, ?_, ?_⟩
        · intro m d hm hd hnd
          apply h2 m hm
          rw [List.getElem?_map, hd, ← hnd]
          rfl
        · have hq : updateOf company isVoid r
              (host.toUtc (if truthy r.timestampPresentacion then
                r.timestampPresentacion.getD "" else host.now)) line p
              ∈ r.lineas.filterMap (lineUpdate company isVoid (ikeysOf company invoices)
                  batch r (host.toUtc (if truthy r.timestampPresentacion then
                    r.timestampPresentacion.getD "" else host.now))) := by
            rw [List.mem_filterMap]
            exact ⟨line, hline, by simp only [lineUpdate, hfind]⟩
          unfold updateOf at hq
          rw [hpc] at hq
          exact ⟨_, _, _, _, _, List.mem_cons_of_mem _ hq⟩

/-- C17, witness: two invoices of 2024 and 2025 with the number 1 and a line for the
display number `1`. -/
theorem outcome_index_keeps_last_witness :
    (lastInvoice (confirmedInvoice :: sampleTwinBatch) acme = some confirmedInvoice
      ∧ (sampleTwinBatch.map fun x => x.id).Nodup
      ∧ sampleTwinBatch[0]? = some { pendingInvoice 2 1 "F1" with dt := ⟨2024, 12, 30⟩ }
      ∧ sampleTwinBatch[1]? = some (pendingInvoice 3 1 "F1")
      ∧ numFmt acme { pendingInvoice 2 1 "F1" with dt := ⟨2024, 12, 30⟩ }
          = numFmt acme (pendingInvoice 3 1 "F1"))
    ∧ ((∀ s, (ikeysOf acme sampleTwinBatch).lookup s
        = lastPosition s (sampleTwinBatch.map (numFmt acme)))
      ∧ (∀ s k, lastPosition s (sampleTwinBatch.map (numFmt acme)) = some k →
          (sampleTwinBatch.map (numFmt acme))[k]? = some s
            ∧ ∀ m, k < m → (sampleTwinBatch.map (numFmt acme))[m]? ≠ some s)
      ∧ ∃ out, send sampleHost (confirmedInvoice :: sampleTwinBatch) acme sampleTwinBatch false
          (.answered 200 (.respuesta sampleTwinRespuesta)) = .ok out
        ∧ (∀ vdt err csv fp vd,
            Query.updateInvoice ({ pendingInvoice 2 1 "F1" with dt := ⟨2024, 12, 30⟩ } : Invoice).id
              vdt err csv fp vd ∉ out.queries)
        ∧ ∀ line ∈ sampleTwinRespuesta.lineas, line.numSerieFactura
            = some (numFmt acme { pendingInvoice 2 1 "F1" with dt := ⟨2024, 12, 30⟩ }) →
            ∃ k c, 0 < k ∧ sampleTwinBatch[k]? = some c
              ∧ numFmt acme c = numFmt acme { pendingInvoice 2 1 "F1" with dt := ⟨2024, 12, 30⟩ }
              ∧ (∀ m d, k < m → sampleTwinBatch[m]? = some d →
                  numFmt acme d
                    ≠ numFmt acme { pendingInvoice 2 1 "F1" with dt := ⟨2024, 12, 30⟩ })
              ∧ ∃ vdt err csv fp vd,
                  Query.updateInvoice c.id vdt err csv fp vd ∈ out.queries) :=
  ⟨⟨by decide!, by decide!, rfl, rfl, by decide!⟩,
    outcome_index_keeps_last sampleHost (confirmedInvoice :: sampleTwinBatch) acme
      sampleTwinBatch false sampleTwinRespuesta confirmedInvoice 0 1
      { pendingInvoice 2 1 "F1" with dt := ⟨2024, 12, 30⟩ } (pendingInvoice 3 1 "F1")
      (by decide!) (by decide!) rfl rfl (by decide) (by decide!)⟩

/-- Joining texts onto a start text appends their join to it. -/
theorem foldl_append_eq (l : List String) :
    ∀ a : String, l.foldl (fun r s => r ++ s) a = a ++ String.join l := by
  induction l with
  | nil => intro a; simp [String.join]
  | cons x xs ih =>
    intro a
    rw [List.foldl_cons, ih (a ++ x)]
    have hx : String.join (x :: xs) = x ++ String.join xs := by
      unfold String.join
      rw [List.foldl_cons, ih ("" ++ x), ih ""]
      simp
    rw [hx, String.append_assoc]

/-- Appending one text per element, from left to right, appends the joined texts. -/
theorem foldl_append_join {α : Type} (f : α → String) :
    ∀ (l : List α) (a : String),
      l.foldl (fun xml x => xml ++ f x) a = a ++ String.join (l.map f)
  | [], a => by simp [String.join]
  | x :: xs, a => by
    rw [List.foldl_cons, foldl_append_join f xs (a ++ f x), List.map_cons]
    have hx : String.join (f x :: xs.map f) = f x ++ String.join (xs.map f) := by
      unfold String.join
      rw [List.foldl_cons, foldl_append_eq _ ("" ++ f x), foldl_append_eq _ ""]
      simp
    rw [hx, String.append_assoc]

/-- A text appended in one branch only. -/
theorem ite_append_same (c : Prop) [Decidable c] (a b : String) :
    (if c then a ++ b else a) = a ++ (if c then b else "") := by
  split_ifs <;> simp

/-- One of two texts appended to the same text. -/
theorem ite_append_both (c : Prop) [Decidable c] (a b d : String) :
    (if c then a ++ b else a ++ d) = a ++ (if c then b else d) := by
  split_ifs <;> rfl

/-- Three texts appended in one branch only. -/
theorem ite_append_three (c : Prop) [Decidable c] (a m j s : String) :
    (if c then ((a ++ m) ++ j) ++ s else a) = a ++ (if c then (m ++ j) ++ s else "") := by
  split_ifs <;> simp [String.append_assoc]

/-- The rows of `referencing` are the rows of the table that refer to the invoice. -/
theorem mem_referencing (db : List Invoice) (id : Nat) (r : Invoice) :
    r ∈ referencing db id ↔ r ∈ db ∧ r.invoice_ref_id = some id := by
  simp [referencing, orderByDt, List.mem_insertionSort, List.mem_filter]

/-- C16. `RegistroAlta` returns, whenever the fingerprint of the record is computed (as it is
for every previous link), the head of the record up to `TipoFactura`, then the
referenced-invoice section of the specification, then the rest of the record from
`DescripcionOperacion` on. The section is empty unless the type code starts with `R` or is
`F3`; else it holds `TipoRectificativa` for a non-empty `verifactu_stype` (`S` for `S`, `I`
otherwise), one entry (issuer id, display number, issue date) per row that the storage
returns for the invoices whose `invoice_ref_id` is this invoice, in that order, in the tags
`FacturasSustituidas/IDFacturaSustituida` for `F3` and
`FacturasRectificadas/IDFacturaRectificada` otherwise, and `ImporteRectificacion` exactly
when `verifactu_stype` is `S`. -/
theorem RegistroAlta_referenced_section (o : Options) (numberText : ℚ → String)
    (db : List Invoice) (invoice_lines : List InvoiceLine) (company : Company)
    (invoice : Invoice) (last : Option ChainLink) (dtGen : String) :
    (∀ r, r ∈ referencing db invoice.id ↔ r ∈ db ∧ r.invoice_ref_id = some invoice.id)
      ∧ RegistroAlta o numberText db invoice_lines company invoice last dtGen
          = (fingerprint company invoice last dtGen false).map (fun fp =>
              registroAltaHead company invoice
                ++ referencedSection db invoice_lines company invoice
                ++ registroAltaTail o numberText invoice_lines company invoice last dtGen fp)
      ∧ ∀ l : ChainLink, ∃ fp, fingerprint company invoice (some l) dtGen false = .ok fp := by
  refine ⟨mem_referencing db invoice.id, ?_,
    fun l => ⟨_, fingerprint_some company invoice l dtGen false⟩⟩
  unfold RegistroAlta
  cases fingerprint company invoice last dtGen false with
  | error e => rfl
  | ok fp =>
    simp only [Except.map, foldl_append_join, ite_append_same, ite_append_both,
      ite_append_three]
    unfold referencedSection registroAltaTail registroAltaHead rectifiedTotals
    delta referenceEntry
    simp only [String.append_assoc, decide_eq_true_eq]

end Verifactu
